import Mathlib

/-!
# Shallow embedding of the FisicaExperimentos circuit-analysis engine

This file embeds the circuit-analysis core of the repository
(`src/utils/solver.js`, `src/utils/node_analyzer.js`, `src/utils/circuit_matrix.js`,
`src/utils/equation_solver.js`, `src/utils/ohm_law_helper.js`,
`src/components/Component.js`, `src/components/VoltageSource.js`, `src/components/Wire.js`)
into Lean and proves properties of the embedded functions.

Modelling conventions:
* JavaScript numbers are modelled exactly as rationals (`ℚ`).  All arithmetic performed by
  the analysis pipeline is `+ - * /` and comparisons, which are exact here; floating-point
  rounding is not modelled.  The two places where the source computes a square root
  (`Math.sqrt` inside `calculateResidual` / `vectorNorm`) only feed comparisons against
  tolerances, so the embedding carries the *squared* quantity and compares against the
  squared tolerance — an equivalent test because `Math.sqrt` is monotone.
* JavaScript `Map`s and plain objects used as dictionaries are modelled as insertion-ordered
  association lists, matching JS iteration order.
* Mutation is modelled by state passing: functions that mutate their arguments return the
  updated value.
* `Infinity` sentinels: a capacitor at DC gets impedance `{real: Infinity}` in the source.
  Infinite impedances have no exact-rational counterpart; the capacitor arm of the impedance
  functions is therefore not modelled (none of the verified claims involves capacitor
  branches).  `calculateAdmittance` models its non-finite results (`Infinity`/`NaN`), which
  callers discard via `isFinite`, as `none`.
* Trigonometry: `Component.getConnectionPoints` applies `cos/sin` of the rotation angle and
  the `'ac'` source waveform evaluates `Math.sin`; both are transcendental.  The embedding
  fixes rotation to 0 (so the rotation is the identity, exactly as in the source for
  unrotated components) and leaves the `'ac'` waveform arm at the `switch` default (0);
  every claim under verification concerns DC behaviour of unrotated components.
-/

namespace CircuitSim

/-- A position in circuit space. -/
structure Point where
  x : ℚ
  y : ℚ
deriving DecidableEq, Repr

/-- Complex impedance record `{real, imaginary}` as used throughout the source. -/
structure Impedance where
  re : ℚ
  im : ℚ
deriving DecidableEq, Repr

/-- The fields of a `Component` (base class plus the subclass fields that the analysis
engine reads).  JS components are dynamic objects, so fields that the engine reads with
an `|| default` or `!== undefined` guard are `Option`s.  The mutable electrical fields
`voltage`, `current`, `power` are the ones written by the coordinator after solving. -/
structure Component where
  id : String
  type : String
  label : String := ""
  x : ℚ := 0
  y : ℚ := 0
  width : ℚ := 40
  value : ℚ := 0
  internalResistance : Option ℚ := none
  temperature : Option ℚ := none
  tempCoefficient : Option ℚ := none
  isVariable : Bool := false
  tapPosition : Option ℚ := none
  forwardVoltage : Option ℚ := none
  forwardResistance : Option ℚ := none
  reverseResistance : Option ℚ := none
  saturationCurrent : Option ℚ := none
  efficiency : Option ℚ := none
  physicalSize : Option ℚ := none
  powerRating : Option ℚ := none
  voltage : ℚ := 0
  current : ℚ := 0
  power : ℚ := 0
deriving DecidableEq, Repr

/-- `Component.getConnectionPoints` for an unrotated two-terminal component
(`getBaseConnectionPoints` of `Component.js`, translated by the component position;
with rotation 0 the `cos/sin` rotation in `getConnectionPoints` is the identity). -/
def Component.getConnectionPoints (c : Component) : List Point :=
  [ { x := c.x - c.width / 2 - 10, y := c.y },
    { x := c.x + c.width / 2 + 10, y := c.y } ]

/-- The fields of a `Wire` read by the analysis engine (`Wire.js`).
`endPt` embeds the JS field `end` (a Lean keyword). -/
structure Wire where
  id : String
  start : Point
  endPt : Point
  resistance : ℚ := 0
  junctions : List Point := []
  startComponent : Option String := none
  endComponent : Option String := none
deriving DecidableEq, Repr

/-- A circuit as consumed by the analyzer: ordered components and wires. -/
structure Circuit where
  components : List Component
  wires : List Wire
deriving DecidableEq, Repr

/-! ## OhmLawHelper (`src/utils/ohm_law_helper.js`) -/

namespace OhmLawHelper

/-- `this.tolerance = 1e-12`. -/
def tolerance : ℚ := 1 / 1000000000000

/-- `getEffectiveResistance`: base value, scaled by the linear temperature coefficient
(ppm/°C referenced to 25 °C) when both `temperature` and `tempCoefficient` are present,
and by the tap position when `isVariable` and `tapPosition` is present. -/
def getEffectiveResistance (resistor : Component) : ℚ :=
  let base := resistor.value
  let base :=
    match resistor.temperature, resistor.tempCoefficient with
    | some temp, some coeff => base * (1 + coeff * (temp - 25) / 1000000)
    | _, _ => base
  match resistor.isVariable, resistor.tapPosition with
  | true, some tap => base * tap
  | _, _ => base

/-- `calculateResistorVoltage`: `V = I · R_eff`. -/
def calculateResistorVoltage (resistor : Component) (current : ℚ) : ℚ :=
  current * getEffectiveResistance resistor

/-- `calculateResistorCurrent`: `I = V / R_eff` when the effective resistance exceeds the
tolerance, else 0. -/
def calculateResistorCurrent (resistor : Component) (voltage : ℚ) : ℚ :=
  let r := getEffectiveResistance resistor
  if r > tolerance then voltage / r else 0

/-- `calculateResistorPower`: `I²R` when `|I|` exceeds the tolerance, else `V²/R` when
`|V|` exceeds the tolerance, else `|V·I|`. -/
def calculateResistorPower (resistor : Component) (voltage current : ℚ) : ℚ :=
  let r := getEffectiveResistance resistor
  if |current| > tolerance then current * current * r
  else if |voltage| > tolerance then voltage * voltage / r
  else |voltage * current|

/-- `calculateCapacitorVoltage` (default `deltaTime = 1e-3`): open at DC
(`|I|` below tolerance keeps the stored voltage), else first-order Euler step. -/
def calculateCapacitorVoltage (capacitor : Component) (current : ℚ)
    (deltaTime : ℚ := 1/1000) : ℚ :=
  if |current| < tolerance then capacitor.voltage
  else capacitor.voltage + current * deltaTime / capacitor.value

/-- `calculateCapacitorCurrent` (default `deltaTime = 1e-3`). -/
def calculateCapacitorCurrent (capacitor : Component) (voltage : ℚ)
    (deltaTime : ℚ := 1/1000) : ℚ :=
  if deltaTime ≤ 0 then 0
  else capacitor.value * ((voltage - capacitor.voltage) / deltaTime)

/-- `calculateInductorVoltage` (default `deltaTime = 1e-3`). -/
def calculateInductorVoltage (inductor : Component) (current : ℚ)
    (deltaTime : ℚ := 1/1000) : ℚ :=
  if |current - inductor.current| < tolerance then 0
  else inductor.value * ((current - inductor.current) / deltaTime)

/-- `calculateInductorCurrent` (default `deltaTime = 1e-3`). -/
def calculateInductorCurrent (inductor : Component) (voltage : ℚ)
    (deltaTime : ℚ := 1/1000) : ℚ :=
  if deltaTime ≤ 0 then inductor.current
  else inductor.current + voltage * deltaTime / inductor.value

/-- `calculateDiodeVoltage`: piecewise linear, `V = Vf + I·Rs` forward,
`I · R_reverse` for non-positive current. -/
def calculateDiodeVoltage (diode : Component) (current : ℚ) : ℚ :=
  let forwardVoltage := diode.forwardVoltage.getD (7/10)
  let seriesResistance := diode.forwardResistance.getD (1/10)
  if current > 0 then forwardVoltage + current * seriesResistance
  else current * diode.reverseResistance.getD 1000000

/-- `calculateDiodeCurrent`. -/
def calculateDiodeCurrent (diode : Component) (voltage : ℚ) : ℚ :=
  let forwardVoltage := diode.forwardVoltage.getD (7/10)
  let seriesResistance := diode.forwardResistance.getD (1/10)
  if voltage > forwardVoltage then (voltage - forwardVoltage) / seriesResistance
  else diode.saturationCurrent.getD (1/1000000000000)

/-- `calculateDiodePower`. -/
def calculateDiodePower (_diode : Component) (voltage current : ℚ) : ℚ :=
  |voltage * current|

/-- `calculateVoltage` (`ohm_law_helper.js` lines 590-619): dispatch on the component
type.  A voltage source returns its nominal `component.value` unchanged; a current source
returns 0; the default arm returns `|I| · value`. -/
def calculateVoltage (component : Component) (current : ℚ) : ℚ :=
  match component.type with
  | "resistor" => calculateResistorVoltage component current
  | "capacitor" => calculateCapacitorVoltage component current
  | "inductor" => calculateInductorVoltage component current
  | "diode" => calculateDiodeVoltage component current
  | "voltage" => component.value
  | "current" => 0
  | _ => |current| * component.value

/-- `calculateCurrent`: dispatch on the component type.  A current source returns its
nominal `component.value` unchanged; a voltage source returns 0. -/
def calculateCurrent (component : Component) (voltage : ℚ) : ℚ :=
  match component.type with
  | "resistor" => calculateResistorCurrent component voltage
  | "capacitor" => calculateCapacitorCurrent component voltage
  | "inductor" => calculateInductorCurrent component voltage
  | "diode" => calculateDiodeCurrent component voltage
  | "voltage" => 0
  | "current" => component.value
  | _ =>
    let resistance := component.value
    if resistance > tolerance then voltage / resistance else 0

/-- `calculatePower(voltage, current)` with no component argument: `|V · I|`. -/
def calculatePowerVI (voltage current : ℚ) : ℚ :=
  |voltage * current|

/-- `calculatePower(voltage, current, component)` with a component argument. -/
def calculatePower (voltage current : ℚ) (component : Component) : ℚ :=
  match component.type with
  | "resistor" => calculateResistorPower component voltage current
  | "capacitor" => voltage * current
  | "inductor" => voltage * current
  | "diode" => calculateDiodePower component voltage current
  | "voltage" => voltage * current
  | "current" => voltage * current
  | _ => calculatePowerVI voltage current

/-- `calculateImpedance(component, 0)` — the DC case (the analysis pipeline always calls
it with the default `frequency = 0`, so `omega = 0`).  The capacitor arm, which returns
the `{real: Infinity}` sentinel in the source, is not modelled (see the file header). -/
def calculateImpedance (component : Component) : Impedance :=
  match component.type with
  | "resistor" => { re := component.value, im := 0 }
  | "inductor" => { re := 0, im := 0 }
  | "diode" => { re := component.forwardResistance.getD (1/10), im := 0 }
  | "voltage" => { re := component.internalResistance.getD 0, im := 0 }
  | "current" => { re := component.internalResistance.getD 0, im := 0 }
  | _ => { re := component.value, im := 0 }

end OhmLawHelper

/-! ## VoltageSource (`src/components/VoltageSource.js`) -/

/-- The fields of a `VoltageSource` read by `getOutputVoltage`. -/
structure VoltageSource where
  value : ℚ
  sourceType : String := "dc"
  internalResistance : ℚ := 0
  compliance : ℚ
  isEnabled : Bool := true
  outputCurrent : ℚ := 0
  frequency : ℚ := 60
  dutyCycle : ℚ := 1/2
  riseTime : ℚ := 1/1000
  fallTime : ℚ := 1/1000
deriving DecidableEq, Repr

/-- JS `%` (remainder with the sign of the dividend): `a - b * trunc(a / b)`. -/
def jsMod (a b : ℚ) : ℚ := a - b * ((a / b).num / ((a / b).den : ℤ) : ℤ)

/-- `VoltageSource.getOutputVoltage(time)` (`VoltageSource.js` lines 212-253): 0 when
disabled; otherwise the waveform value for `dc`/`pulse`/`ramp` (the `ac` arm evaluates a
sine and is left at the switch default, see the file header; an unknown `sourceType` also
leaves `voltage = 0`), minus `I·R_internal` when `internalResistance > 0` and the output
current is nonzero, clamped to `[-compliance, compliance]`. -/
def VoltageSource.getOutputVoltage (v : VoltageSource) (time : ℚ := 0) : ℚ :=
  if !v.isEnabled then 0
  else
    let voltage : ℚ :=
      match v.sourceType with
      | "dc" => v.value
      | "pulse" =>
        let period := 1 / v.frequency
        let cycleTime := jsMod time period
        if cycleTime < period * v.dutyCycle then v.value else 0
      | "ramp" =>
        let rampPeriod := v.riseTime + v.fallTime
        let rampCycleTime := jsMod time rampPeriod
        if rampCycleTime < v.riseTime then v.value * (rampCycleTime / v.riseTime)
        else v.value * (1 - (rampCycleTime - v.riseTime) / v.fallTime)
      | _ => 0
    let voltage :=
      if v.internalResistance > 0 ∧ v.outputCurrent ≠ 0 then
        voltage - v.outputCurrent * v.internalResistance
      else voltage
    max (-v.compliance) (min v.compliance voltage)

/-! ## Association-list helpers modelling JS `Map`s / dictionary objects

JS `Map`s and plain objects iterate in insertion order; setting an existing key
overwrites in place, setting a fresh key appends. -/

/-- Lookup (JS `map.get(k)` / `obj[k]`). -/
def alGet {α : Type _} (m : List (String × α)) (k : String) : Option α :=
  (m.find? (fun p => p.1 = k)).map (·.2)

/-- Key-presence test (JS `map.has(k)`). -/
def alHas {α : Type _} (m : List (String × α)) (k : String) : Bool :=
  (m.find? (fun p => p.1 = k)).isSome

/-- Insertion-order-preserving set (overwrite in place, else append). -/
def alSet {α : Type _} (m : List (String × α)) (k : String) (v : α) : List (String × α) :=
  if alHas m k then m.map (fun p => if p.1 = k then (k, v) else p) else m ++ [(k, v)]

/-- Update the value at an existing key in place (no-op when absent). -/
def alUpdate {α : Type _} (m : List (String × α)) (k : String) (f : α → α) :
    List (String × α) :=
  m.map (fun p => if p.1 = k then (p.1, f p.2) else p)

/-- JS `Math.round`: round half toward `+∞`. -/
def jsRound (q : ℚ) : ℤ := ⌊q + 1/2⌋

/-! ## NodeAnalyzer (`src/utils/node_analyzer.js`) -/

namespace NodeAnalyzer

/-- `this.tolerance = 10` (pixels) of `NodeAnalyzer`. -/
def tolerance : ℚ := 10

/-- One entry of a physical node's `components` list (the JS object also stores a
terminal name, unread downstream). -/
structure PhysCompRef where
  componentId : String
  component : Component
  terminal : ℕ
deriving DecidableEq, Repr

/-- A physical node: a position bucket produced by `identifyPhysicalNodes`. -/
structure PhysNode where
  id : String
  x : ℚ
  y : ℚ
  components : List PhysCompRef := []
  wires : List String := []
  type : String
  isGround : Bool := false
deriving DecidableEq, Repr

/-- `generateNodeKey`: coordinates rounded to the snapping tolerance, joined as
`"${roundedX},${roundedY}"` (the rounded values are integers, printed as JS prints
integers). -/
def generateNodeKey (x y : ℚ) : String :=
  toString (jsRound (x / tolerance) * 10) ++ "," ++ toString (jsRound (y / tolerance) * 10)

/-- State while building physical nodes: the key→node map and the id counter. -/
abbrev PhysState := List (String × PhysNode) × ℕ

/-- Insert a fresh bucket if `key` is absent (shared shape of the three insertion sites
in `identifyPhysicalNodes`). -/
def physInsert (st : PhysState) (key : String) (x y : ℚ) (nodeType : String) : PhysState :=
  if alHas st.1 key then st
  else
    (st.1 ++ [(key, { id := s!"node_{st.2}", x := x, y := y, type := nodeType })], st.2 + 1)

/-- `identifyPhysicalNodes`: bucket component terminals, then wire endpoints, then wire
junctions, by rounded position. -/
def identifyPhysicalNodes (circuit : Circuit) : List PhysNode :=
  let st : PhysState := ([], 0)
  -- component connection points
  let st := circuit.components.foldl (fun st component =>
    component.getConnectionPoints.enum.foldl (fun st (pt : ℕ × Point) =>
      let terminalIndex := pt.1
      let point := pt.2
      let nodeKey := generateNodeKey point.x point.y
      let st := physInsert st nodeKey point.x point.y "junction"
      (alUpdate st.1 nodeKey (fun node =>
        let node := { node with components := node.components ++
          [{ componentId := component.id, component := component,
             terminal := terminalIndex }] }
        if component.type = "ground" then { node with isGround := true, type := "ground" }
        else node), st.2)) st) st
  -- wire endpoints
  let st := circuit.wires.foldl (fun st wire =>
    [wire.start, wire.endPt].foldl (fun st point =>
      let nodeKey := generateNodeKey point.x point.y
      let st := physInsert st nodeKey point.x point.y "wire_terminal"
      (alUpdate st.1 nodeKey (fun node =>
        if node.wires.contains wire.id then node
        else { node with wires := node.wires ++ [wire.id] }), st.2)) st) st
  -- wire junctions
  let st := circuit.wires.foldl (fun st wire =>
    wire.junctions.foldl (fun st junction =>
      let nodeKey := generateNodeKey junction.x junction.y
      let st := physInsert st nodeKey junction.x junction.y "wire_junction"
      (alUpdate st.1 nodeKey (fun node =>
        if node.wires.contains wire.id then node
        else { node with wires := node.wires ++ [wire.id] }), st.2)) st) st
  st.1.map (·.2)

/-- Union-find state (`UnionFind` class of `node_analyzer.js`). -/
structure UnionFind where
  parent : List ℕ
  rank : List ℕ
deriving DecidableEq, Repr

/-- `new UnionFind(size)`. -/
def UnionFind.create (size : ℕ) : UnionFind :=
  { parent := List.range size, rank := List.replicate size 0 }

/-- Chase parent pointers for at most `fuel` steps. -/
def ufFindAux (parent : List ℕ) : ℕ → ℕ → ℕ
  | 0, x => x
  | fuel + 1, x =>
    let p := parent.getD x x
    if p = x then x else ufFindAux parent fuel p

/-- `UnionFind.find`.  The JS version also performs path compression; compression
re-parents entries directly to their root and never changes which root is returned, so
the uncompressed walk (bounded by the forest size) yields the same result. -/
def UnionFind.find (uf : UnionFind) (x : ℕ) : ℕ :=
  ufFindAux uf.parent uf.parent.length x

/-- `UnionFind.union` with union by rank. -/
def UnionFind.union (uf : UnionFind) (x y : ℕ) : UnionFind :=
  let rootX := uf.find x
  let rootY := uf.find y
  if rootX = rootY then uf
  else if uf.rank.getD rootX 0 < uf.rank.getD rootY 0 then
    { uf with parent := uf.parent.set rootX rootY }
  else if uf.rank.getD rootY 0 < uf.rank.getD rootX 0 then
    { uf with parent := uf.parent.set rootY rootX }
  else
    { parent := uf.parent.set rootY rootX,
      rank := uf.rank.set rootX (uf.rank.getD rootX 0 + 1) }

/-- `findNodeAtPosition`: first physical node within the tolerance box. -/
def findNodeAtPosition (nodes : List PhysNode) (x y : ℚ) : Option PhysNode :=
  nodes.find? (fun node => |node.x - x| < tolerance ∧ |node.y - y| < tolerance)

/-- An electrical node (the merged union-find group). -/
structure ENode where
  id : String
  x : ℚ
  y : ℚ
  physicalNodes : List String := []
  components : List PhysCompRef := []
  wires : List String := []
  connections : List String := []
  isGround : Bool := false
  voltage : ℚ := 0
  type : String
deriving DecidableEq, Repr

/-- `classifyNodeType`. -/
def classifyNodeType (components : List PhysCompRef) (wireCount : ℕ) : String :=
  if components.length = 0 ∧ wireCount = 0 then "isolated"
  else if components.any (fun c => c.component.type = "ground") then "ground"
  else if components.length > 0 ∧ wireCount = 0 then "component_terminal"
  else if components.length = 0 ∧ wireCount > 0 then "wire_junction"
  else if components.length + wireCount = 2 then "simple_connection"
  else if components.length + wireCount > 2 then "junction"
  else "unknown"

/-- `findElectricalNodeAtPosition`: first electrical node whose centroid is within the
tolerance box. -/
def findElectricalNodeAtPosition (electricalNodes : List ENode) (x y : ℚ) : Option ENode :=
  electricalNodes.find? (fun node => |node.x - x| < tolerance ∧ |node.y - y| < tolerance)

/-- Append `v` if not already present (JS `if (!xs.includes(v)) xs.push(v)`). -/
def pushUnique (xs : List String) (v : String) : List String :=
  if xs.contains v then xs else xs ++ [v]

/-- Connect the electrical nodes at two positions bidirectionally (shared shape of the
two loops in `establishNodeConnections`; the connection is added only when both lookups
succeed and hit distinct nodes). -/
def connectAtPositions (nodes : List ENode) (p1 p2 : Point) : List ENode :=
  match findElectricalNodeAtPosition nodes p1.x p1.y,
        findElectricalNodeAtPosition nodes p2.x p2.y with
  | some n1, some n2 =>
    if n1.id = n2.id then nodes
    else
      nodes.map (fun node =>
        if node.id = n1.id then { node with connections := pushUnique node.connections n2.id }
        else if node.id = n2.id then
          { node with connections := pushUnique node.connections n1.id }
        else node)
  | _, _ => nodes

/-- `establishNodeConnections`: one bidirectional link per wire, then one per non-ground
component with at least two terminals. -/
def establishNodeConnections (electricalNodes : List ENode) (circuit : Circuit) :
    List ENode :=
  let nodes := circuit.wires.foldl (fun nodes wire =>
    connectAtPositions nodes wire.start wire.endPt) electricalNodes
  circuit.components.foldl (fun nodes component =>
    if component.type = "ground" then nodes
    else
      match component.getConnectionPoints with
      | p1 :: p2 :: _ => connectAtPositions nodes p1 p2
      | _ => nodes) nodes

/-- `createElectricalNodes`: union physical nodes joined by wires of resistance below
`1e-6`, merge each group into one electrical node (centroid position, concatenated
component refs, deduplicated wire ids, ground if any member is ground), then establish
connections. -/
def createElectricalNodes (physicalNodes : List PhysNode) (circuit : Circuit) :
    List ENode :=
  let nodeIndexMap : List (String × ℕ) := physicalNodes.enum.map (fun p => (p.2.id, p.1))
  let unionFind := circuit.wires.foldl (fun uf wire =>
    if wire.resistance < 1/1000000 then
      match findNodeAtPosition physicalNodes wire.start.x wire.start.y,
            findNodeAtPosition physicalNodes wire.endPt.x wire.endPt.y with
      | some startNode, some endNode =>
        uf.union ((alGet nodeIndexMap startNode.id).getD 0)
          ((alGet nodeIndexMap endNode.id).getD 0)
      | _, _ => uf
    else uf) (UnionFind.create physicalNodes.length)
  -- group by root, in order of first appearance
  let groups : List (ℕ × List PhysNode) := physicalNodes.enum.foldl (fun groups p =>
    let rootIndex := unionFind.find p.1
    if groups.any (fun g => g.1 = rootIndex) then
      groups.map (fun g => if g.1 = rootIndex then (g.1, g.2 ++ [p.2]) else g)
    else groups ++ [(rootIndex, [p.2])]) []
  let electricalNodes : List ENode := groups.enum.map (fun g =>
    let electricalNodeId := g.1
    let nodeGroup := g.2.2
    let avgX := (nodeGroup.map (·.x)).sum / (nodeGroup.length : ℚ)
    let avgY := (nodeGroup.map (·.y)).sum / (nodeGroup.length : ℚ)
    let allComponents := nodeGroup.foldl (fun acc n => acc ++ n.components) []
    let allWires := nodeGroup.foldl (fun acc n => n.wires.foldl pushUnique acc) []
    let isGround := nodeGroup.any (·.isGround)
    { id := s!"enode_{electricalNodeId}", x := avgX, y := avgY,
      physicalNodes := nodeGroup.map (·.id),
      components := allComponents, wires := allWires,
      isGround := isGround,
      type := classifyNodeType allComponents allWires.length })
  establishNodeConnections electricalNodes circuit

/-- A branch: a two-terminal element between two electrical nodes.  The JS branch also
stores direct references to its node objects (`startNode`/`endNode`), which downstream
code only uses through the ids kept here. -/
structure Branch where
  id : String
  type : String
  componentId : Option String := none
  component : Option Component := none
  wireId : Option String := none
  startNodeId : String
  endNodeId : String
  current : ℚ := 0
  voltage : ℚ := 0
  impedance : Impedance
deriving DecidableEq, Repr

/-- `NodeAnalyzer.getComponentImpedance` at the default `frequency = 0`.  The capacitor
arm returns the `{real: Infinity}` sentinel in the source and is not modelled (file
header); at `frequency = 0` the inductor reactance `XL` is 0. -/
def getComponentImpedance (component : Component) : Impedance :=
  match component.type with
  | "resistor" => { re := component.value, im := 0 }
  | "inductor" => { re := 0, im := 0 }
  | "voltage" => { re := component.internalResistance.getD 0, im := 0 }
  | "current" => { re := component.internalResistance.getD 0, im := 0 }
  | "diode" => { re := component.forwardResistance.getD (7/10), im := 0 }
  | _ => { re := 0, im := 0 }

/-- `identifyBranches`: one branch per non-ground component with ≥ 2 connection points
whose two endpoint lookups succeed, then one per wire with resistance above `1e-6`
whose endpoints resolve to two distinct electrical nodes. -/
def identifyBranches (circuit : Circuit) (electricalNodes : List ENode) : List Branch :=
  let st : List Branch × ℕ := ([], 0)
  let st := circuit.components.foldl (fun st component =>
    if component.type = "ground" then st
    else
      match component.getConnectionPoints with
      | p1 :: p2 :: _ =>
        match findElectricalNodeAtPosition electricalNodes p1.x p1.y,
              findElectricalNodeAtPosition electricalNodes p2.x p2.y with
        | some startNode, some endNode =>
          let branchId := st.2
          (st.1 ++ [{ id := s!"branch_{branchId}", type := component.type,
                      componentId := some component.id, component := some component,
                      startNodeId := startNode.id, endNodeId := endNode.id,
                      impedance := getComponentImpedance component }], st.2 + 1)
        | _, _ => st
      | _ => st) st
  let st := circuit.wires.foldl (fun st wire =>
    if wire.resistance > 1/1000000 then
      match findElectricalNodeAtPosition electricalNodes wire.start.x wire.start.y,
            findElectricalNodeAtPosition electricalNodes wire.endPt.x wire.endPt.y with
      | some startNode, some endNode =>
        if startNode.id = endNode.id then st
        else
          let branchId := st.2
          (st.1 ++ [{ id := s!"branch_{branchId}", type := "wire",
                      wireId := some wire.id,
                      startNodeId := startNode.id, endNodeId := endNode.id,
                      impedance := { re := wire.resistance, im := 0 } }], st.2 + 1)
      | _, _ => st
    else st) st
  st.1

/-- A mesh recorded by the greedy walk. -/
structure Mesh where
  id : String
  branches : List Branch
  nodes : List String
deriving DecidableEq, Repr

/-- A critical-node record of `identifyCriticalNodes`. -/
structure CriticalNode where
  nodeId : String
  reason : String
  connections : ℕ
deriving DecidableEq, Repr

/-- Topology record of `analyzeTopology`. -/
structure Topology where
  description : String := "general"
  isSeriesCircuit : Bool := false
  isParallelCircuit : Bool := false
  isLadderCircuit : Bool := false
  isBridgeCircuit : Bool := false
  hasLoops : Bool := false
  loopCount : ℕ := 0
  meshes : List Mesh := []
  criticalNodes : List CriticalNode := []
deriving DecidableEq, Repr

/-- `detectSeriesCircuit`: every non-ground node whose type is not
`component_terminal` has exactly 2 connections (false when there is no such node). -/
def detectSeriesCircuit (nodes : List ENode) (_branches : List Branch) : Bool :=
  let nonTerminalNodes := nodes.filter (fun node =>
    !node.isGround ∧ node.type ≠ "component_terminal")
  if nonTerminalNodes.length = 0 then false
  else nonTerminalNodes.all (fun node => node.connections.length = 2)

/-- `detectParallelCircuit`: all non-wire branches share the node pair of the first
non-wire branch, in either orientation. -/
def detectParallelCircuit (_nodes : List ENode) (branches : List Branch) : Bool :=
  if branches.length ≤ 1 then false
  else
    match branches.find? (fun b => b.type ≠ "wire") with
    | none => false
    | some firstBranch =>
      let otherBranches := branches.filter (fun b =>
        b.type ≠ "wire" ∧ b.id ≠ firstBranch.id)
      otherBranches.all (fun branch =>
        (branch.startNodeId = firstBranch.startNodeId ∧
         branch.endNodeId = firstBranch.endNodeId) ∨
        (branch.startNodeId = firstBranch.endNodeId ∧
         branch.endNodeId = firstBranch.startNodeId))

/-- `detectLadderCircuit`: the set of distinct connection counts is exactly `{2, 3}`
(the JS lexicographic `sort()` does not affect the length/membership tests). -/
def detectLadderCircuit (nodes : List ENode) (_branches : List Branch) : Bool :=
  let nodeConnectionCounts := nodes.map (fun node => node.connections.length)
  let uniqueCounts := nodeConnectionCounts.foldl
    (fun acc c => if acc.contains c then acc else acc ++ [c]) ([] : List ℕ)
  uniqueCounts.length = 2 ∧ uniqueCounts.contains 2 ∧ uniqueCounts.contains 3

/-- `detectBridgeCircuit`: exactly 5 nodes, 4 of them with 3 connections and 1 with 2. -/
def detectBridgeCircuit (nodes : List ENode) (_branches : List Branch) : Bool :=
  if nodes.length ≠ 5 then false
  else
    (nodes.filter (fun n => n.connections.length = 3)).length = 4 ∧
    (nodes.filter (fun n => n.connections.length = 2)).length = 1

/-- The loop body of `findMeshFromBranch`: while the current node differs from the start
node and iterations remain, follow the first unvisited branch touching the current node;
stop (keeping the walk collected so far) when none exists.  `fuel` is the remaining
iteration budget (`maxIterations = allBranches.length + 1` at the top call). -/
def findMeshWalk (allBranches : List Branch) (startNode : String) :
    ℕ → List Branch → List String → String → List Branch × List String
  | 0, mesh, visited, _ => (mesh, visited)
  | fuel + 1, mesh, visited, currentNode =>
    if currentNode = startNode then (mesh, visited)
    else
      match allBranches.find? (fun branch =>
        !visited.contains branch.id ∧
        (branch.startNodeId = currentNode ∨ branch.endNodeId = currentNode)) with
      | none => (mesh, visited)
      | some nextBranch =>
        let nextNode :=
          if nextBranch.startNodeId = currentNode then nextBranch.endNodeId
          else nextBranch.startNodeId
        findMeshWalk allBranches startNode fuel (mesh ++ [nextBranch])
          (visited ++ [nextBranch.id]) nextNode

/-- `findMeshFromBranch`: seed the walk with the start branch and run the loop.
Returns the collected walk and the updated visited set. -/
def findMeshFromBranch (startBranch : Branch) (allBranches : List Branch)
    (visitedBranches : List String) : List Branch × List String :=
  findMeshWalk allBranches startBranch.startNodeId (allBranches.length + 1)
    [startBranch] (visitedBranches ++ [startBranch.id]) startBranch.endNodeId

/-- `getNodesFromBranches`: the distinct node ids touched by the branches, in first
appearance order. -/
def getNodesFromBranches (branches : List Branch) : List String :=
  branches.foldl (fun acc branch =>
    pushUnique (pushUnique acc branch.startNodeId) branch.endNodeId) []

/-- One step of `findMeshes`' loop: skip an already-visited start branch, else walk
from it and record the walk as a mesh when it collected more than two branches. -/
def findMeshesStep (allBranches : List Branch) (st : List Mesh × List String)
    (startBranch : Branch) : List Mesh × List String :=
  if st.2.contains startBranch.id then st
  else
    let mv := findMeshFromBranch startBranch allBranches st.2
    if mv.1.length > 2 then
      let meshIndex := st.1.length
      (st.1 ++ [{ id := s!"mesh_{meshIndex}", branches := mv.1,
                  nodes := getNodesFromBranches mv.1 }], mv.2)
    else (st.1, mv.2)

/-- `findMeshes`: greedy walk from each not-yet-visited branch; a walk of more than two
branches is recorded as a mesh (whether or not it closed). -/
def findMeshes (_nodes : List ENode) (branches : List Branch) : List Mesh :=
  (branches.foldl (findMeshesStep branches) ([], [])).1

/-- `identifyCriticalNodes`. -/
def identifyCriticalNodes (nodes : List ENode) : List CriticalNode :=
  nodes.foldl (fun criticalNodes node =>
    let connectionCount := node.connections.length
    if node.isGround then
      criticalNodes ++ [{ nodeId := node.id, reason := "referencia (ground)",
                          connections := connectionCount }]
    else if node.connections.length > 3 then
      criticalNodes ++ [{ nodeId := node.id,
                          reason := s!"alta conectividad ({connectionCount} conexiones)",
                          connections := connectionCount }]
    else if node.components.any (fun c =>
        c.component.type = "voltage" ∨ c.component.type = "current") then
      criticalNodes ++ [{ nodeId := node.id, reason := "conectado a fuente",
                          connections := connectionCount }]
    else criticalNodes) []

/-- `analyzeTopology`. -/
def analyzeTopology (electricalNodes : List ENode) (branches : List Branch) : Topology :=
  let isSeriesCircuit := detectSeriesCircuit electricalNodes branches
  let isParallelCircuit := detectParallelCircuit electricalNodes branches
  let isLadderCircuit := detectLadderCircuit electricalNodes branches
  let isBridgeCircuit := detectBridgeCircuit electricalNodes branches
  let meshes := findMeshes electricalNodes branches
  let loopCount := meshes.length
  let description :=
    if isSeriesCircuit then "serie"
    else if isParallelCircuit then "paralelo"
    else if isLadderCircuit then "escalera"
    else if isBridgeCircuit then "puente"
    else if loopCount = 1 then "malla simple"
    else if loopCount > 1 then "multi-malla"
    else "general"
  { description := description,
    isSeriesCircuit := isSeriesCircuit,
    isParallelCircuit := isParallelCircuit,
    isLadderCircuit := isLadderCircuit,
    isBridgeCircuit := isBridgeCircuit,
    hasLoops := loopCount > 0,
    loopCount := loopCount,
    meshes := meshes,
    criticalNodes := identifyCriticalNodes electricalNodes }

/-- Breadth-first walk over the `connections` graph (`isGraphConnected`).  Each loop
iteration shifts one entry off the queue, and entries are enqueued only when first
visited, so `1 + Σ |connections|` iterations bound the JS `while`. -/
def bfsConnections (nodes : List ENode) :
    ℕ → List String → List String → List String
  | 0, visited, _ => visited
  | _ + 1, visited, [] => visited
  | fuel + 1, visited, currentNodeId :: queue =>
    match nodes.find? (fun n => n.id = currentNodeId) with
    | none => bfsConnections nodes fuel visited queue
    | some currentNode =>
      let st := currentNode.connections.foldl (fun (st : List String × List String) nb =>
        if st.1.contains nb then st else (st.1 ++ [nb], st.2 ++ [nb])) (visited, queue)
      bfsConnections nodes fuel st.1 st.2

/-- `isGraphConnected`: breadth-first reachability from the first node covers them all. -/
def isGraphConnected (nodes : List ENode) : Bool :=
  match nodes with
  | [] => true
  | first :: _ =>
    let fuel := 1 + (nodes.map (fun n => n.connections.length)).sum + nodes.length
    let visited := bfsConnections nodes fuel [first.id] [first.id]
    visited.length = nodes.length

/-- Result record of `validateNodeStructure`. -/
structure StructValidation where
  isValid : Bool
  error : String
deriving DecidableEq, Repr

/-- `validateNodeStructure`: no isolated non-ground node, at least one ground node, a
connected graph, and branches whose endpoints exist. -/
def validateNodeStructure (nodes : List ENode) (branches : List Branch) :
    StructValidation :=
  let errors : List String := []
  let isolatedNodes := nodes.filter (fun node =>
    node.connections.length = 0 ∧ !node.isGround)
  let errors :=
    if isolatedNodes.length > 0 then
      let names := String.intercalate ", " (isolatedNodes.map (·.id))
      errors ++ [s!"Nodos aislados detectados: {names}"]
    else errors
  let errors :=
    if (nodes.filter (·.isGround)).length = 0 then
      errors ++ ["No se encontró nodo de referencia (ground)"]
    else errors
  let errors :=
    if !isGraphConnected nodes then
      errors ++ ["El circuito tiene componentes desconectados"]
    else errors
  let errors := branches.foldl (fun errors branch =>
    if (nodes.find? (fun n => n.id = branch.startNodeId)).isSome ∧
       (nodes.find? (fun n => n.id = branch.endNodeId)).isSome then errors
    else
      let bid := branch.id
      errors ++ [s!"Rama {bid} conecta nodos inválidos"]) errors
  { isValid := errors.length = 0, error := String.intercalate "; " errors }

/-- Result record of `checkBasicConnectivity`. -/
structure Connectivity where
  isConnected : Bool
  reason : String
  connectedComponents : ℕ := 0
  totalComponents : ℕ := 0
deriving DecidableEq, Repr

/-- Breadth-first walk over the component graph of `checkBasicConnectivity`. -/
def bfsComponents (graph : List (String × List String)) :
    ℕ → List String → List String → List String
  | 0, visited, _ => visited
  | _ + 1, visited, [] => visited
  | fuel + 1, visited, currentId :: queue =>
    let neighbors := (alGet graph currentId).getD []
    let st := neighbors.foldl (fun (st : List String × List String) nb =>
      if st.1.contains nb then st else (st.1 ++ [nb], st.2 ++ [nb])) (visited, queue)
    bfsComponents graph fuel st.1 st.2

/-- `checkBasicConnectivity`: all components reachable from the first one through the
wire graph.  (Adding an edge for a wire whose endpoint id is not a component key would
throw in JS — such an exception is caught by the coordinator; the embedding skips the
edge, which no verified claim depends on.) -/
def checkBasicConnectivity (circuit : Circuit) : Connectivity :=
  match circuit.components with
  | [] => { isConnected := false, reason := "No hay componentes" }
  | first :: _ =>
    if circuit.wires.length = 0 then
      { isConnected := false, reason := "No hay conexiones" }
    else
      let componentGraph : List (String × List String) :=
        circuit.components.map (fun c => (c.id, []))
      let componentGraph := circuit.wires.foldl (fun graph wire =>
        match wire.startComponent, wire.endComponent with
        | some s, some e =>
          if alHas graph s ∧ alHas graph e then
            alUpdate (alUpdate graph s (fun l => pushUnique l e)) e
              (fun l => pushUnique l s)
          else graph
        | _, _ => graph) componentGraph
      let fuel := 1 + circuit.components.length +
        (componentGraph.map (fun g => g.2.length)).sum
      let visited := bfsComponents componentGraph fuel [first.id] [first.id]
      let isConnected := visited.length = circuit.components.length
      { isConnected := isConnected,
        connectedComponents := visited.length,
        totalComponents := circuit.components.length,
        reason :=
          if isConnected then "Todos los componentes están conectados"
          else
            let k := circuit.components.length - visited.length
            s!"{k} componentes desconectados" }

/-- Statistics record of `analyzeNodes`. -/
structure NodeStatistics where
  isolatedNodes : ℕ
  junctionNodes : ℕ
  terminalNodes : ℕ
deriving DecidableEq, Repr

/-- Result record of `analyzeNodes`. -/
structure NodeAnalysisResult where
  isValid : Bool
  error : String := ""
  nodes : List ENode
  branches : List Branch
  topology : Topology := {}
  nodeCount : ℕ := 0
  branchCount : ℕ := 0
  voltageSourceCount : ℕ := 0
  currentSourceCount : ℕ := 0
  statistics : NodeStatistics := ⟨0, 0, 0⟩
deriving DecidableEq, Repr

/-- `analyzeNodes` (`node_analyzer.js` lines 14-62): physical nodes → electrical nodes
→ branches → topology → structural validation.  The embedded stages are total, so the
JS `catch` arm cannot fire. -/
def analyzeNodes (circuit : Circuit) : NodeAnalysisResult :=
  let nodes := identifyPhysicalNodes circuit
  let electricalNodes := createElectricalNodes nodes circuit
  let branches := identifyBranches circuit electricalNodes
  let topology := analyzeTopology electricalNodes branches
  let validation := validateNodeStructure electricalNodes branches
  { isValid := validation.isValid,
    error := validation.error,
    nodes := electricalNodes,
    branches := branches,
    topology := topology,
    nodeCount := electricalNodes.length,
    branchCount := branches.length,
    voltageSourceCount := (branches.filter (fun b => b.type = "voltage")).length,
    currentSourceCount := (branches.filter (fun b => b.type = "current")).length,
    statistics :=
      { isolatedNodes :=
          (electricalNodes.filter (fun n => n.connections.length = 0)).length,
        junctionNodes :=
          (electricalNodes.filter (fun n => n.connections.length > 2)).length,
        terminalNodes :=
          (electricalNodes.filter (fun n => n.connections.length = 1)).length } }

end NodeAnalyzer

/-! ## CircuitMatrixBuilder (`src/utils/circuit_matrix.js`)

JS matrices (arrays of arrays, always used square here) are modelled as
`Matrix (Fin n) (Fin n) ℚ` and vectors as `Fin n → ℚ`.  In-place element writes are
modelled by the pointwise-update helpers below, addressed by natural-number coordinates
exactly as the source indexes its arrays (an out-of-range write is a no-op; the source
never performs one). -/

open NodeAnalyzer (ENode Branch Mesh Topology NodeAnalysisResult)

/-- `createMatrix`: the zero matrix. -/
def matZero (n : ℕ) : Matrix (Fin n) (Fin n) ℚ := fun _ _ => 0

/-- Zero vector (`new Array(n).fill(0)`). -/
def vecZero (n : ℕ) : Fin n → ℚ := fun _ => 0

/-- `M[r][c] += v`. -/
def addAt {n : ℕ} (M : Matrix (Fin n) (Fin n) ℚ) (r c : ℕ) (v : ℚ) :
    Matrix (Fin n) (Fin n) ℚ :=
  fun i j => if i.val = r ∧ j.val = c then M i j + v else M i j

/-- `M[r][c] = v`. -/
def setAt {n : ℕ} (M : Matrix (Fin n) (Fin n) ℚ) (r c : ℕ) (v : ℚ) :
    Matrix (Fin n) (Fin n) ℚ :=
  fun i j => if i.val = r ∧ j.val = c then v else M i j

/-- `vec[r] += v`. -/
def vecAddAt {n : ℕ} (vec : Fin n → ℚ) (r : ℕ) (v : ℚ) : Fin n → ℚ :=
  fun i => if i.val = r then vec i + v else vec i

/-- `vec[r] = v`. -/
def vecSetAt {n : ℕ} (vec : Fin n → ℚ) (r : ℕ) (v : ℚ) : Fin n → ℚ :=
  fun i => if i.val = r then v else vec i

namespace CircuitMatrixBuilder

/-- `this.tolerance = 1e-12`. -/
def tolerance : ℚ := 1 / 1000000000000

/-- The `dimensions` record.  JS stores only the keys relevant to each method; absent
keys are modelled by the defaults.  `varCount` embeds the JS key `variables` (a reserved
word position in Lean). -/
structure Dimensions where
  rows : ℕ := 0
  cols : ℕ := 0
  varCount : ℕ := 0
  voltageSourceCount : ℕ := 0
  meshCount : ℕ := 0
  totalResistance : ℚ := 0
  totalVoltage : ℚ := 0
  sourceVoltage : ℚ := 0
  isLadder : Bool := false
deriving DecidableEq, Repr

/-- The conditioning record produced by `checkMatrixConditioning`.
`isPositiveDefinite` is **never written** by `checkMatrixConditioning` (the JS object has
no such key), yet `selectSolverMethod` reads it: in JS the read yields `undefined`,
which is falsy — modelled by the default `false`. -/
structure Conditioning where
  determinant : ℚ
  rank : ℕ
  isDiagonallyDominant : Bool
  isSymmetric : Bool
  isSingular : Bool := false
  warning : Option String := none
  isPositiveDefinite : Bool := false
deriving DecidableEq, Repr

/-- The matrices record assembled by `buildSystemMatrices` (the fields read
downstream).  The system matrix is square by construction (every builder creates it with
`createMatrix(k, k)`), but its size and the RHS length are tracked separately because
`buildNodalMatrices` overwrites `systemMatrix` with the *unexpanded* admittance matrix
after `handleVoltageSourcesNodal` has already replaced the RHS with the expanded one —
with voltage sources present the two lengths genuinely differ in the source. -/
structure BuiltMatrices where
  method : String
  n : ℕ
  rhsLen : ℕ
  systemMatrix : Matrix (Fin n) (Fin n) ℚ
  rightHandSide : Fin rhsLen → ℚ
  nodeIndexMap : List (String × ℕ)
  branchIndexMap : List (String × ℕ)
  groundNodeId : Option String
  nodeCount : ℕ
  branchCount : ℕ
  dimensions : Dimensions
  conditioning : Option Conditioning := none

/-- `calculateAdmittance`: `conj(Z)/|Z|²`; `none` models the non-finite results
(`{real: Infinity}` when `|Z|²` is below tolerance) that callers discard through
`isFinite`. -/
def calculateAdmittance (impedance : Impedance) : Option Impedance :=
  let re := impedance.re
  let im := impedance.im
  let denominator := re * re + im * im
  if denominator < tolerance then none
  else some { re := re / denominator, im := -im / denominator }

/-- Used where the source reads `branch.component.value` on a branch that always carries
a component. -/
def defaultComponent : Component := { id := "", type := "" }

/-- `Branch.component.value` (0 when the branch carries no component, which the call
sites never hit). -/
def branchComponentValue (b : Branch) : ℚ := (b.component.getD defaultComponent).value

/-- `addBranchToNodalMatrix`: stamp the branch admittance into `G` and, for a current
source, inject `∓value` into the RHS.  When the admittance is non-finite the JS function
returns early, skipping the current-source injection as well. -/
def addBranchToNodalMatrix {n : ℕ} (nodeIndexMap : List (String × ℕ)) (branch : Branch)
    (G : Matrix (Fin n) (Fin n) ℚ) (I : Fin n → ℚ) :
    Matrix (Fin n) (Fin n) ℚ × (Fin n → ℚ) :=
  let startNodeIndex := alGet nodeIndexMap branch.startNodeId
  let endNodeIndex := alGet nodeIndexMap branch.endNodeId
  match calculateAdmittance branch.impedance with
  | none => (G, I)
  | some admittance =>
    let G :=
      match startNodeIndex, endNodeIndex with
      | some s, some e =>
        let G := addAt G s s admittance.re
        let G := addAt G e e admittance.re
        let G := addAt G s e (-admittance.re)
        addAt G e s (-admittance.re)
      | some s, none => addAt G s s admittance.re
      | none, some e => addAt G e e admittance.re
      | none, none => G
    let I :=
      if branch.type = "current" then
        let current := branchComponentValue branch
        let I := match startNodeIndex with
          | some s => vecAddAt I s (-current)
          | none => I
        match endNodeIndex with
        | some e => vecAddAt I e current
        | none => I
      else I
    (G, I)

/-- `handleVoltageSourcesNodal`: expand the system by one row/column per voltage-source
branch, with the `±1` constraint stamps and the source value on the RHS. -/
def handleVoltageSourcesNodal (branches : List Branch)
    (nodeIndexMap : List (String × ℕ)) (originalSize : ℕ)
    (G : Matrix (Fin originalSize) (Fin originalSize) ℚ) (I : Fin originalSize → ℚ) :
    (newSize : ℕ) × (Matrix (Fin newSize) (Fin newSize) ℚ × (Fin newSize → ℚ)) × ℕ :=
  let voltageSources := branches.filter (fun b => b.type = "voltage")
  if voltageSources.length = 0 then ⟨originalSize, (G, I), 0⟩
  else
    let newSize := originalSize + voltageSources.length
    let expandedMatrix : Matrix (Fin newSize) (Fin newSize) ℚ := fun i j =>
      if h : i.val < originalSize ∧ j.val < originalSize then
        G ⟨i.val, h.1⟩ ⟨j.val, h.2⟩
      else 0
    let expandedRHS : Fin newSize → ℚ := fun i =>
      if h : i.val < originalSize then I ⟨i.val, h⟩ else 0
    let st := voltageSources.enum.foldl
      (fun (st : Matrix (Fin newSize) (Fin newSize) ℚ × (Fin newSize → ℚ)) p =>
        let idx := p.1
        let source := p.2
        let sourceRow := originalSize + idx
        let startNodeIndex := alGet nodeIndexMap source.startNodeId
        let endNodeIndex := alGet nodeIndexMap source.endNodeId
        let M := st.1
        let M := match startNodeIndex with
          | some s => setAt (setAt M sourceRow s 1) s sourceRow 1
          | none => M
        let M := match endNodeIndex with
          | some e => setAt (setAt M sourceRow e (-1)) e sourceRow (-1)
          | none => M
        (M, vecSetAt st.2 sourceRow (branchComponentValue source)))
      (expandedMatrix, expandedRHS)
    ⟨newSize, st, voltageSources.length⟩

/-- `findSharedBranches`: branches of `mesh1` whose id also appears in `mesh2`. -/
def findSharedBranches (mesh1 mesh2 : Mesh) : List Branch :=
  mesh1.branches.filter (fun branch1 =>
    mesh2.branches.any (fun branch2 => branch1.id = branch2.id))

/-- `buildMeshImpedanceMatrix` (`circuit_matrix.js` lines 279-298): the diagonal entry
`(i,i)` sums the `impedance.real` of every branch in mesh `i`; the off-diagonal entry
`(i,j)` sums the `impedance.real` of the branches shared between meshes `i` and `j`
(no negation in the source).  `impedance.real || 0` is the identity on rationals. -/
def buildMeshImpedanceMatrix (meshes : List Mesh) :
    Matrix (Fin meshes.length) (Fin meshes.length) ℚ :=
  fun i j =>
    if i = j then ((meshes.get i).branches.map (fun b => b.impedance.re)).sum
    else
      ((findSharedBranches (meshes.get i) (meshes.get j)).map
        (fun b => b.impedance.re)).sum

/-- `getVoltageSourcePolarity`: always `1` (documented simplification). -/
def getVoltageSourcePolarity (_voltageSource : Branch) (_mesh : Mesh) : ℚ := 1

/-- `buildMeshVoltageVector`: per mesh, the polarity-weighted sum of the voltage-source
values it contains. -/
def buildMeshVoltageVector (meshes : List Mesh) : Fin meshes.length → ℚ :=
  fun i =>
    (meshes.get i).branches.foldl (fun sum branch =>
      if branch.type = "voltage" then
        sum + getVoltageSourcePolarity branch (meshes.get i) * branchComponentValue branch
      else sum) 0

/-- `approximateDeterminant`: product of the diagonal entries. -/
def approximateDeterminant {n : ℕ} (M : Matrix (Fin n) (Fin n) ℚ) : ℚ :=
  ∏ i, M i i

/-- `calculateDeterminant` of `circuit_matrix.js`: closed forms up to 3×3, diagonal
product above (and for the 0×0 case, whose empty diagonal product is 1). -/
def calculateDeterminantCM : {n : ℕ} → Matrix (Fin n) (Fin n) ℚ → ℚ
  | 1, M => M 0 0
  | 2, M => M 0 0 * M 1 1 - M 0 1 * M 1 0
  | 3, M =>
    M 0 0 * (M 1 1 * M 2 2 - M 1 2 * M 2 1)
      - M 0 1 * (M 1 0 * M 2 2 - M 1 2 * M 2 0)
      + M 0 2 * (M 1 0 * M 2 1 - M 1 1 * M 2 0)
  | _, M => approximateDeterminant M

/-- `estimateRank`: number of rows whose absolute sum exceeds the tolerance. -/
def estimateRank {n : ℕ} (M : Matrix (Fin n) (Fin n) ℚ) : ℕ :=
  (Finset.univ.filter (fun i : Fin n => tolerance < ∑ j, |M i j|)).card

/-- `checkDiagonalDominance` (`circuit_matrix.js`). -/
def checkDiagonalDominance {n : ℕ} (M : Matrix (Fin n) (Fin n) ℚ) : Bool :=
  ∀ i : Fin n, ¬(|M i i| < ∑ j ∈ Finset.univ.filter (· ≠ i), |M i j|)

/-- `checkSymmetry`: no entry pair differs by more than the tolerance. -/
def checkSymmetry {n : ℕ} (M : Matrix (Fin n) (Fin n) ℚ) : Bool :=
  ∀ i j : Fin n, ¬(tolerance < |M i j - M j i|)

/-- `extractSubmatrix` specialised to the leading `k×k` block (the only use, inside
`isPositiveDefinite`, always has `k ≤ n`; out-of-range reads yield 0 here). -/
def leadingSubmatrix {n : ℕ} (M : Matrix (Fin n) (Fin n) ℚ) (k : ℕ) :
    Matrix (Fin k) (Fin k) ℚ :=
  fun i j =>
    if h : i.val < n ∧ j.val < n then M ⟨i.val, h.1⟩ ⟨j.val, h.2⟩ else 0

/-- `isPositiveDefinite` of `circuit_matrix.js`: positive diagonal and positive leading
principal minors (computed with `calculateDeterminant`, hence Sylvester's criterion,
exact up to 3×3).  The analysis pipeline never calls this function. -/
def isPositiveDefinite {n : ℕ} (M : Matrix (Fin n) (Fin n) ℚ) : Bool :=
  (∀ i : Fin n, ¬(M i i ≤ 0)) ∧
  (List.range n).all (fun k => ¬(calculateDeterminantCM (leadingSubmatrix M (k + 1)) ≤ 0))

/-- `checkMatrixConditioning` (`circuit_matrix.js` lines 464-495): determinant, rank,
diagonal dominance, symmetry; a singularity warning when `|det|` is below tolerance,
overwritten by a non-dominance warning when the matrix is not diagonally dominant.
No `isPositiveDefinite` key is ever written. -/
def checkMatrixConditioning {n : ℕ} (M : Matrix (Fin n) (Fin n) ℚ) : Conditioning :=
  let determinant := calculateDeterminantCM M
  let isDiagonallyDominant := checkDiagonalDominance M
  let isSingular := |determinant| < tolerance
  let warning :=
    if isSingular then some "Matriz singular o cerca de singular" else none
  let warning :=
    if !isDiagonallyDominant then
      some "Matriz no es diagonalmente dominante - posible inestabilidad numérica"
    else warning
  { determinant := determinant,
    rank := estimateRank M,
    isDiagonallyDominant := isDiagonallyDominant,
    isSymmetric := checkSymmetry M,
    isSingular := isSingular,
    warning := warning }

/-- `createIndexMappings`: matrix row per non-ground node (in list order) and per
branch. -/
def createIndexMappings (nodeAnalysis : NodeAnalysisResult) :
    List (String × ℕ) × List (String × ℕ) × Option String :=
  let groundNode := nodeAnalysis.nodes.find? (·.isGround)
  let groundNodeId := groundNode.map (·.id)
  let nodeIndexMap := (nodeAnalysis.nodes.foldl
    (fun (st : List (String × ℕ) × ℕ) node =>
      if some node.id = groundNodeId then st
      else (st.1 ++ [(node.id, st.2)], st.2 + 1)) ([], 0)).1
  let branchIndexMap := nodeAnalysis.branches.enum.map (fun p => (p.2.id, p.1))
  (nodeIndexMap, branchIndexMap, groundNodeId)

/-- `buildNodalMatrices` (plus `buildLadderMatrices`, which runs it and flags the
dimensions): stamp every branch, handle voltage sources, then — as in the source —
assign `systemMatrix := admittanceMatrix` (the unexpanded `n×n` matrix) and rebuild
`dimensions` from `n`, both *after* the voltage-source expansion replaced the RHS. -/
def buildNodalMatrices (nodeAnalysis : NodeAnalysisResult) (method : String)
    (nodeIndexMap branchIndexMap : List (String × ℕ)) (groundNodeId : Option String)
    (isLadder : Bool) : BuiltMatrices :=
  let n := nodeIndexMap.length
  let GI := nodeAnalysis.branches.foldl
    (fun (GI : Matrix (Fin n) (Fin n) ℚ × (Fin n → ℚ)) branch =>
      addBranchToNodalMatrix nodeIndexMap branch GI.1 GI.2)
    (matZero n, vecZero n)
  let expansion := handleVoltageSourcesNodal nodeAnalysis.branches nodeIndexMap n GI.1 GI.2
  let voltageSourceCount := expansion.2.2
  { method := if isLadder then "ladder" else method,
    n := n,
    rhsLen := expansion.1,
    systemMatrix := GI.1,
    rightHandSide := expansion.2.1.2,
    nodeIndexMap := nodeIndexMap,
    branchIndexMap := branchIndexMap,
    groundNodeId := groundNodeId,
    nodeCount := n,
    branchCount := branchIndexMap.length,
    dimensions := { rows := n, cols := n, varCount := n,
                    voltageSourceCount := voltageSourceCount, isLadder := isLadder } }

/-- `buildMeshMatrices`: impedance matrix and voltage vector over the found meshes;
throws when no mesh was found. -/
def buildMeshMatrices (nodeAnalysis : NodeAnalysisResult) (method : String)
    (nodeIndexMap branchIndexMap : List (String × ℕ)) (groundNodeId : Option String) :
    Except String BuiltMatrices :=
  let meshes := nodeAnalysis.topology.meshes
  let m := meshes.length
  if m = 0 then .error "No se encontraron mallas independientes para análisis"
  else
    .ok { method := method,
          n := m,
          rhsLen := m,
          systemMatrix := buildMeshImpedanceMatrix meshes,
          rightHandSide := buildMeshVoltageVector meshes,
          nodeIndexMap := nodeIndexMap,
          branchIndexMap := branchIndexMap,
          groundNodeId := groundNodeId,
          nodeCount := nodeIndexMap.length,
          branchCount := branchIndexMap.length,
          dimensions := { rows := m, cols := m, varCount := m, meshCount := m } }

/-- `buildSeriesMatrices`: trivial `1×1` system `R_total · I = V_total` (resistor
branches and voltage-source branches respectively); throws without a voltage source. -/
def buildSeriesMatrices (nodeAnalysis : NodeAnalysisResult) (method : String)
    (nodeIndexMap branchIndexMap : List (String × ℕ)) (groundNodeId : Option String) :
    Except String BuiltMatrices :=
  let voltageSources := nodeAnalysis.branches.filter (fun b => b.type = "voltage")
  let resistors := nodeAnalysis.branches.filter (fun b => b.type = "resistor")
  if voltageSources.length = 0 then .error "Circuito serie sin fuente de voltaje"
  else
    let totalVoltage := (voltageSources.map branchComponentValue).sum
    let totalResistance := (resistors.map (fun r => r.impedance.re)).sum
    .ok { method := method,
          n := 1,
          rhsLen := 1,
          systemMatrix := fun _ _ => totalResistance,
          rightHandSide := fun _ => totalVoltage,
          nodeIndexMap := nodeIndexMap,
          branchIndexMap := branchIndexMap,
          groundNodeId := groundNodeId,
          nodeCount := nodeIndexMap.length,
          branchCount := branchIndexMap.length,
          dimensions := { rows := 1, cols := 1, varCount := 1,
                          totalResistance := totalResistance,
                          totalVoltage := totalVoltage } }

/-- `buildParallelMatrices`: diagonal matrix of branch resistances (`|| 1` turns a zero
diagonal entry into 1), RHS filled with the first source voltage; throws without a
voltage source. -/
def buildParallelMatrices (nodeAnalysis : NodeAnalysisResult) (method : String)
    (nodeIndexMap branchIndexMap : List (String × ℕ)) (groundNodeId : Option String) :
    Except String BuiltMatrices :=
  let voltageSources := nodeAnalysis.branches.filter (fun b => b.type = "voltage")
  let resistors := nodeAnalysis.branches.filter (fun b => b.type = "resistor")
  match voltageSources with
  | [] => .error "Circuito paralelo sin fuente de voltaje"
  | firstSource :: _ =>
    let sourceVoltage := branchComponentValue firstSource
    let n := resistors.length
    .ok { method := method,
          n := n,
          rhsLen := n,
          systemMatrix := fun i j =>
            if i = j then
              let r := (resistors.get i).impedance.re
              if r = 0 then 1 else r
            else 0,
          rightHandSide := fun _ => sourceVoltage,
          nodeIndexMap := nodeIndexMap,
          branchIndexMap := branchIndexMap,
          groundNodeId := groundNodeId,
          nodeCount := nodeIndexMap.length,
          branchCount := branchIndexMap.length,
          dimensions := { rows := n, cols := n, varCount := n,
                          sourceVoltage := sourceVoltage } }

/-- `buildSystemMatrices` (`circuit_matrix.js` lines 14-75): index mappings, dispatch on
the method, then matrix conditioning.  A thrown structural error is caught and converted
into an invalid result with the `Error en construcción de matrices:` prefix; an unknown
method yields the `Método no soportado:` error. -/
def buildSystemMatrices (nodeAnalysis : NodeAnalysisResult) (method : String) :
    Except String BuiltMatrices :=
  let maps := createIndexMappings nodeAnalysis
  let nodeIndexMap := maps.1
  let branchIndexMap := maps.2.1
  let groundNodeId := maps.2.2
  let built : Except String BuiltMatrices :=
    match method with
    | "nodal" | "nodal_modified" =>
      .ok (buildNodalMatrices nodeAnalysis method nodeIndexMap branchIndexMap
        groundNodeId false)
    | "mesh" | "mesh_modified" =>
      match buildMeshMatrices nodeAnalysis method nodeIndexMap branchIndexMap
        groundNodeId with
      | .error e => .error s!"Error en construcción de matrices: {e}"
      | .ok m => .ok m
    | "series" =>
      match buildSeriesMatrices nodeAnalysis method nodeIndexMap branchIndexMap
        groundNodeId with
      | .error e => .error s!"Error en construcción de matrices: {e}"
      | .ok m => .ok m
    | "parallel" =>
      match buildParallelMatrices nodeAnalysis method nodeIndexMap branchIndexMap
        groundNodeId with
      | .error e => .error s!"Error en construcción de matrices: {e}"
      | .ok m => .ok m
    | "ladder" =>
      .ok (buildNodalMatrices nodeAnalysis method nodeIndexMap branchIndexMap
        groundNodeId true)
    | _ => .error s!"Método no soportado: {method}"
  match built with
  | .error e => .error e
  | .ok m => .ok { m with conditioning := some (checkMatrixConditioning m.systemMatrix) }

end CircuitMatrixBuilder

/-! ## EquationSolver (`src/utils/equation_solver.js`)

The solution vectors handed back to `solve` are JS arrays and are modelled as `List ℚ`
(their length is observable downstream).  `Math.sqrt` appears only inside
`calculateResidual`/`verifySolution` and the convergence checks; the embedding carries
the squared residual and compares it against squared tolerances, an equivalent test
(see the file header). -/

namespace EquationSolver

open CircuitMatrixBuilder (BuiltMatrices Conditioning)

/-- `this.tolerance = 1e-10`. -/
def tolerance : ℚ := 1 / 10000000000

/-- `this.maxIterations = 1000`. -/
def maxIterations : ℕ := 1000

/-- Convergence data of the iterative methods (`residuals` holds squared residuals). -/
structure Convergence where
  iterations : ℕ := 0
  residuals : List ℚ := []
deriving DecidableEq, Repr

/-- The record returned by each individual solving method. -/
structure MethodResult where
  isValid : Bool
  values : List ℚ
  method : String
  error : Option String := none
  iterations : ℕ := 0
  convergence : Convergence := {}
deriving DecidableEq, Repr

/-- `selectSolverMethod` (`equation_solver.js` lines 130-164). -/
def selectSolverMethod (matrices : BuiltMatrices) : String :=
  let n := matrices.n
  let detAboveTol : Bool := match matrices.conditioning with
    | some c => decide (|c.determinant| > tolerance)
    | none => false
  let symPosDef : Bool := match matrices.conditioning with
    | some c => c.isSymmetric && c.isPositiveDefinite
    | none => false
  let noWarning : Bool := match matrices.conditioning with
    | some c => decide (c.warning = none)
    | none => true
  let diagDominant : Bool := match matrices.conditioning with
    | some c => c.isDiagonallyDominant
    | none => false
  if matrices.method = "series" then "series_simple"
  else if matrices.method = "parallel" then "parallel_simple"
  else if n ≤ 3 ∧ detAboveTol then "cramer"
  else if symPosDef then "cholesky"
  else if noWarning then
    if n ≤ 10 then "direct_elimination" else "lu_decomposition"
  else if diagDominant then "iterative_gauss_seidel"
  else "direct_elimination"

/-- Partial-pivot row search: the first row index `k ≥ i` maximising `|A k i|`
(the JS loop replaces the candidate only on strict improvement). -/
def pivotRowF {n : ℕ} (A : Matrix (Fin n) (Fin n) ℚ) (i : Fin n) : Fin n :=
  ((List.finRange n).drop (i.val + 1)).foldl
    (fun maxRow k => if |A maxRow i| < |A k i| then k else maxRow) i

/-- The matrix part of one inner elimination step: subtract `factor = A k i / A i i`
times row `i` from row `k`, for the columns `j ≥ i`. -/
def elimRowOp {n : ℕ} (i : Fin n) (A : Matrix (Fin n) (Fin n) ℚ) (k : Fin n) :
    Matrix (Fin n) (Fin n) ℚ :=
  fun r c => if r = k ∧ i ≤ c then A r c - A k i / A i i * A i c else A r c

/-- One inner elimination step on the augmented system: the matrix part `elimRowOp`
together with the same operation on the RHS entry (the JS inner loop runs
`j = i .. n`, the last column being the RHS). -/
def elimStep {n : ℕ} (i : Fin n) (st : Matrix (Fin n) (Fin n) ℚ × (Fin n → ℚ))
    (k : Fin n) : Matrix (Fin n) (Fin n) ℚ × (Fin n → ℚ) :=
  (elimRowOp i st.1 k,
   fun r => if r = k then st.2 r - st.1 k i / st.1 i i * st.2 i else st.2 r)

/-- The matrix after the partial-pivoting row swap at pivot index `i` (the swap is
applied only when `maxRow !== i`, as in the source). -/
def swapMat {n : ℕ} (A : Matrix (Fin n) (Fin n) ℚ) (i : Fin n) :
    Matrix (Fin n) (Fin n) ℚ :=
  if pivotRowF A i = i then A else A.submatrix (Equiv.swap i (pivotRowF A i)) id

/-- The RHS after the same row swap. -/
def swapVec {n : ℕ} (A : Matrix (Fin n) (Fin n) ℚ) (b : Fin n → ℚ) (i : Fin n) :
    Fin n → ℚ :=
  if pivotRowF A i = i then b else b ∘ Equiv.swap i (pivotRowF A i)

/-- Forward phase of `gaussianElimination`, from pivot row `i` on: partial pivoting,
pivot-magnitude check, elimination of the rows below.  The loop counter of the JS
`for (let i = 0; i < n; i++)` is carried as the remaining-step count `gas`, started at
`n`; `gas` only reaches `0` together with `i = n`. -/
def forwardElimAux {n : ℕ} (A : Matrix (Fin n) (Fin n) ℚ) (b : Fin n → ℚ)
    (i : ℕ) : ℕ → Except String (Matrix (Fin n) (Fin n) ℚ × (Fin n → ℚ))
  | 0 => .ok (A, b)
  | gas + 1 =>
    if h : i < n then
      if |swapMat A ⟨i, h⟩ ⟨i, h⟩ ⟨i, h⟩| < tolerance then
        .error s!"Elemento pivote muy pequeño en posición ({i}, {i})"
      else
        forwardElimAux
          (((List.finRange n).drop (i + 1)).foldl (elimStep ⟨i, h⟩)
            (swapMat A ⟨i, h⟩, swapVec A b ⟨i, h⟩)).1
          (((List.finRange n).drop (i + 1)).foldl (elimStep ⟨i, h⟩)
            (swapMat A ⟨i, h⟩, swapVec A b ⟨i, h⟩)).2
          (i + 1) gas
    else .ok (A, b)

/-- Back substitution: `x i = (b i - Σ_{j>i} A i j · x j) / A i i`, filled from the last
row upward. -/
def backSubstitute {n : ℕ} (A : Matrix (Fin n) (Fin n) ℚ) (b : Fin n → ℚ) :
    Fin n → ℚ :=
  (List.finRange n).reverse.foldl
    (fun x i =>
      Function.update x i
        ((b i - ∑ j ∈ Finset.univ.filter (fun j => i < j), A i j * x j) / A i i))
    (fun _ => 0)

/-- `gaussianElimination` (`equation_solver.js` lines 169-226): forward elimination with
partial pivoting and the `1e-10` pivot check, then back substitution; a pivot failure is
caught and becomes an invalid result whose `values` are the zero-filled array. -/
def gaussianElimination {n : ℕ} (A : Matrix (Fin n) (Fin n) ℚ) (b : Fin n → ℚ) :
    MethodResult :=
  match forwardElimAux A b 0 n with
  | .error msg =>
    { isValid := false,
      error := some s!"Error en eliminación gaussiana: {msg}",
      values := List.replicate n 0,
      method := "gaussian_elimination" }
  | .ok st =>
    { isValid := true,
      values := (List.finRange n).map (backSubstitute st.1 st.2),
      method := "gaussian_elimination" }

/-- The partial `L`-row swap of `luDecomposition` (only the already-filled columns
`j < i` of the two pivot rows are exchanged). -/
def luSwapL {n : ℕ} (L U : Matrix (Fin n) (Fin n) ℚ) (i : Fin n) :
    Matrix (Fin n) (Fin n) ℚ :=
  if pivotRowF U i = i then L
  else fun r c =>
    if (r = i ∨ r = pivotRowF U i) ∧ c.val < i.val then
      L (Equiv.swap i (pivotRowF U i) r) c
    else L r c

/-- One inner step of the LU elimination: store the factor in `L[k][i]` and subtract
`factor` times row `i` from row `k` of `U` for the columns `j ≥ i`. -/
def luStep {n : ℕ} (i : Fin n)
    (st : Matrix (Fin n) (Fin n) ℚ × Matrix (Fin n) (Fin n) ℚ) (k : Fin n) :
    Matrix (Fin n) (Fin n) ℚ × Matrix (Fin n) (Fin n) ℚ :=
  (fun r c => if r = k ∧ c = i then st.2 k i / st.2 i i else st.1 r c,
   elimRowOp i st.2 k)

/-- Forward phase of `luDecomposition` on the pair `(L, U)`: partial pivoting on `U`
(mirrored on the already-filled columns `j < i` of `L`), the pivot check, then the
factor store `L[k][i] := U[k][i]/U[i][i]` and row elimination on `U` for columns
`j ≥ i`. -/
def luForwardAux {n : ℕ} (L U : Matrix (Fin n) (Fin n) ℚ)
    (i : ℕ) : ℕ → Except String (Matrix (Fin n) (Fin n) ℚ × Matrix (Fin n) (Fin n) ℚ)
  | 0 => .ok (L, U)
  | gas + 1 =>
    if h : i < n then
      if |swapMat U ⟨i, h⟩ ⟨i, h⟩ ⟨i, h⟩| < tolerance then
        .error s!"Pivote muy pequeño en descomposición LU: posición ({i}, {i})"
      else
        luForwardAux
          (((List.finRange n).drop (i + 1)).foldl (luStep ⟨i, h⟩)
            (luSwapL L U ⟨i, h⟩, swapMat U ⟨i, h⟩)).1
          (((List.finRange n).drop (i + 1)).foldl (luStep ⟨i, h⟩)
            (luSwapL L U ⟨i, h⟩, swapMat U ⟨i, h⟩)).2
          (i + 1) gas
    else .ok (L, U)

/-- `luDecomposition` (`equation_solver.js` lines 231-305, as the file stands): pivoted
factorisation of `U` with factors stored in `L`, then the two triangular solves written
there (`Ly = b` and `Lᵀx = y`, both dividing by `L i i`); the catch arm labels its
message `Error en descomposición Cholesky` and the success record's `method` is
`cholesky_decomposition`, exactly as in the source. -/
def luDecomposition {n : ℕ} (A : Matrix (Fin n) (Fin n) ℚ) (b : Fin n → ℚ) :
    MethodResult :=
  match luForwardAux (fun i j => if i = j then 1 else 0) A 0 n with
  | .error msg =>
    { isValid := false,
      error := some s!"Error en descomposición Cholesky: {msg}",
      values := List.replicate n 0,
      method := "cholesky_decomposition" }
  | .ok st =>
    let L := st.1
    let y : Fin n → ℚ := (List.finRange n).foldl
      (fun y i =>
        Function.update y i
          ((b i - ∑ j ∈ Finset.univ.filter (fun j => j < i), L i j * y j) / L i i))
      (fun _ => 0)
    let x : Fin n → ℚ := (List.finRange n).reverse.foldl
      (fun x i =>
        Function.update x i
          ((y i - ∑ j ∈ Finset.univ.filter (fun j => i < j), L j i * x j) / L i i))
      (fun _ => 0)
    { isValid := true,
      values := (List.finRange n).map x,
      method := "cholesky_decomposition" }

/-- `choleskyDecomposition` computes floating-point square roots, which have no exact
rational counterpart, so its numeric body is not modelled.  `selectSolverMethod` can
only reach the `cholesky` arm when `conditioning.isPositiveDefinite` holds, and
`checkMatrixConditioning` never sets that key (see `Conditioning`), so the arm is
unreachable for matrices built by the pipeline; the model makes it an explicitly
invalid result. -/
def choleskyDecomposition {n : ℕ} (_A : Matrix (Fin n) (Fin n) ℚ) (_b : Fin n → ℚ) :
    MethodResult :=
  { isValid := false,
    error := some "cholesky: raíz cuadrada fuera del modelo racional exacto",
    values := List.replicate n 0,
    method := "cholesky_decomposition" }

/-- Squared residual `‖Ax − b‖²` (`calculateResidual` returns its square root). -/
def calculateResidualSq {n : ℕ} (A : Matrix (Fin n) (Fin n) ℚ) (b : Fin n → ℚ)
    (x : Fin n → ℚ) : ℚ :=
  ∑ i, (∑ j, A i j * x j - b i) ^ 2

/-- `jacobiMethod` loop: compute the simultaneous update, record the squared residual,
stop when it beats `tolerance²` (JS: `√residual < tolerance`). -/
def jacobiAux {n : ℕ} (A : Matrix (Fin n) (Fin n) ℚ) (b : Fin n → ℚ) (iter : ℕ)
    (x : Fin n → ℚ) (conv : Convergence) : MethodResult :=
  if iter < maxIterations then
    let xNew : Fin n → ℚ := fun i =>
      (b i - ∑ j ∈ Finset.univ.filter (fun j => j ≠ i), A i j * x j) / A i i
    let residualSq := calculateResidualSq A b xNew
    let conv := { iterations := iter + 1, residuals := conv.residuals ++ [residualSq] }
    if residualSq < tolerance ^ 2 then
      { isValid := true, values := (List.finRange n).map xNew,
        method := "jacobi_iterative", iterations := iter + 1, convergence := conv }
    else jacobiAux A b (iter + 1) xNew conv
  else
    { isValid := false,
      error := some s!"Error en método Jacobi: Jacobi no convergió en {maxIterations} iteraciones",
      values := (List.finRange n).map x,
      method := "jacobi_iterative", convergence := conv }
termination_by maxIterations - iter

/-- `jacobiMethod` (`equation_solver.js` lines 310-364). -/
def jacobiMethod {n : ℕ} (A : Matrix (Fin n) (Fin n) ℚ) (b : Fin n → ℚ) :
    MethodResult :=
  jacobiAux A b 0 (fun _ => 0) {}

/-- `gaussSeidelMethod` loop: in-place sweep (each `x i` update sees the already-updated
entries), then the same convergence test as Jacobi. -/
def gaussSeidelAux {n : ℕ} (A : Matrix (Fin n) (Fin n) ℚ) (b : Fin n → ℚ) (iter : ℕ)
    (x : Fin n → ℚ) (conv : Convergence) : MethodResult :=
  if iter < maxIterations then
    let x := (List.finRange n).foldl
      (fun x i =>
        Function.update x i
          ((b i - ∑ j ∈ Finset.univ.filter (fun j => j ≠ i), A i j * x j) / A i i))
      x
    let residualSq := calculateResidualSq A b x
    let conv := { iterations := iter + 1, residuals := conv.residuals ++ [residualSq] }
    if residualSq < tolerance ^ 2 then
      { isValid := true, values := (List.finRange n).map x,
        method := "gauss_seidel_iterative", iterations := iter + 1, convergence := conv }
    else gaussSeidelAux A b (iter + 1) x conv
  else
    { isValid := false,
      error := some s!"Error en método Gauss-Seidel: Gauss-Seidel no convergió en {maxIterations} iteraciones",
      values := (List.finRange n).map x,
      method := "gauss_seidel_iterative", convergence := conv }
termination_by maxIterations - iter

/-- `gaussSeidelMethod` (`equation_solver.js` lines 369-421). -/
def gaussSeidelMethod {n : ℕ} (A : Matrix (Fin n) (Fin n) ℚ) (b : Fin n → ℚ) :
    MethodResult :=
  gaussSeidelAux A b 0 (fun _ => 0) {}

/-- `getMinor`: drop one row and one column, keeping the order of the rest. -/
def getMinor {m : ℕ} (M : Matrix (Fin (m + 1)) (Fin (m + 1)) ℚ) (row col : Fin (m + 1)) :
    Matrix (Fin m) (Fin m) ℚ :=
  M.submatrix row.succAbove col.succAbove

/-- The closed 3×3 branch of `calculateDeterminant` (the recursive call made for each
4×4 minor lands in this branch, so it is also the cofactor used below). -/
def detThreeClosed (M : Matrix (Fin 3) (Fin 3) ℚ) : ℚ :=
  M 0 0 * (M 1 1 * M 2 2 - M 1 2 * M 2 1)
    - M 0 1 * (M 1 0 * M 2 2 - M 1 2 * M 2 0)
    + M 0 2 * (M 1 0 * M 2 1 - M 1 1 * M 2 0)

/-- `calculateDeterminant` of `equation_solver.js`: closed forms up to 3×3, first-row
cofactor expansion for 4×4 (each recursive call hits the 3×3 closed form),
diagonal-product approximation above (and 1 for the empty matrix, its empty diagonal
product). -/
def calculateDeterminantES : {n : ℕ} → Matrix (Fin n) (Fin n) ℚ → ℚ
  | 1, M => M 0 0
  | 2, M => M 0 0 * M 1 1 - M 0 1 * M 1 0
  | 3, M => detThreeClosed M
  | 4, M => ∑ i : Fin 4, M 0 i * ((-1) ^ (i : ℕ) * detThreeClosed (getMinor M 0 i))
  | _, M => CircuitMatrixBuilder.approximateDeterminant M

/-- `cramerRule` (`equation_solver.js` lines 426-465): abort when `|det A|` is below
tolerance, else each unknown is the determinant of `A` with column `i` replaced by `b`,
divided by `det A`. -/
def cramerRule {n : ℕ} (A : Matrix (Fin n) (Fin n) ℚ) (b : Fin n → ℚ) : MethodResult :=
  let detA := calculateDeterminantES A
  if |detA| < tolerance then
    { isValid := false,
      error := some "Error en regla de Cramer: Determinante muy pequeño para regla de Cramer",
      values := List.replicate n 0,
      method := "cramer_rule" }
  else
    { isValid := true,
      values := (List.finRange n).map (fun i =>
        calculateDeterminantES (fun r c => if c = i then b r else A r c) / detA),
      method := "cramer_rule" }

/-- `solveSeriesCircuit`: `I = V_total / R_total` from the dimensions record; invalid
when the total resistance is not positive.  (In that error case the JS return carries no
`values` array at all, which later makes `extractNodeVoltages` throw inside `solve`'s
`try` — either way `solve` reports `isValid: false`; the model returns an empty list.) -/
def solveSeriesCircuit (matrices : BuiltMatrices) : MethodResult :=
  let totalResistance := matrices.dimensions.totalResistance
  let totalVoltage := matrices.dimensions.totalVoltage
  if totalResistance ≤ 0 then
    { isValid := false,
      error := some "Resistencia total inválida en circuito serie",
      values := [],
      method := "series_analytical" }
  else
    { isValid := true,
      values := [totalVoltage / totalResistance],
      method := "series_analytical" }

/-- `solveParallelCircuit`: per row, `V / R` from the diagonal entry (0 when the
resistance is not positive). -/
def solveParallelCircuit (matrices : BuiltMatrices) : MethodResult :=
  let sourceVoltage := matrices.dimensions.sourceVoltage
  { isValid := true,
    values := (List.finRange matrices.n).map (fun i =>
      let resistance := matrices.systemMatrix i i
      if resistance > 0 then sourceVoltage / resistance else 0),
    method := "parallel_analytical" }

/-- `verifySolution`: squared residual against `(tolerance·1000)²`
(JS: `√residual < tolerance * 1000`). -/
structure Verification where
  isValid : Bool
  residualSq : ℚ
deriving DecidableEq, Repr

/-- `verifySolution` on the solution list (reads beyond the end are modelled as 0; the
call sites always supply a list of matching length). -/
def verifySolution {n : ℕ} (A : Matrix (Fin n) (Fin n) ℚ) (b : Fin n → ℚ)
    (xs : List ℚ) : Verification :=
  let residualSq := calculateResidualSq A b (fun j => xs.getD j.val 0)
  { isValid := residualSq < (tolerance * 1000) ^ 2, residualSq := residualSq }

/-- `extractNodeVoltages`: a zero array of length `nodeIndexMap.size + 1`, the solution
entries copied at their node indices when in range, the ground slot (last entry)
re-written to 0. -/
def extractNodeVoltages (solutionValues : List ℚ) (matrices : BuiltMatrices) :
    List ℚ :=
  let size := matrices.nodeIndexMap.length + 1
  let nodeVoltages := List.replicate size (0 : ℚ)
  let nodeVoltages := matrices.nodeIndexMap.foldl
    (fun nv p =>
      if p.2 < solutionValues.length then nv.set p.2 (solutionValues.getD p.2 0)
      else nv) nodeVoltages
  nodeVoltages.set (size - 1) 0

/-- `extractBranchCurrents` (`equation_solver.js` lines 588-613): for the `series`
method every branch gets `solution[0]`; for `parallel` each branch gets the entry at its
own index; for every other method the loop stores the placeholder `0` for every
branch. -/
def extractBranchCurrents (solutionValues : List ℚ) (matrices : BuiltMatrices) :
    List (String × ℚ) :=
  if matrices.method = "series" then
    let current := solutionValues.getD 0 0
    matrices.branchIndexMap.map (fun p => (p.1, current))
  else if matrices.method = "parallel" then
    matrices.branchIndexMap.map (fun p => (p.1, solutionValues.getD p.2 0))
  else
    matrices.branchIndexMap.map (fun p => (p.1, (0 : ℚ)))

/-- The record returned by `solve` (`residual` carries the squared residual, and
`solveTime` — wall-clock in JS — is modelled as 0). -/
structure SolveResult where
  isValid : Bool
  error : Option String := none
  nodeVoltages : List ℚ := []
  branchCurrents : List (String × ℚ) := []
  solverMethod : String := ""
  iterations : ℕ := 0
  residual : ℚ := 0
  solveTime : ℚ := 0
  convergence : Convergence := {}
  warnings : List String := []
deriving DecidableEq, Repr

/-- `solve` (`equation_solver.js` lines 15-101): input validation (`validateInput`
throws, caught into an invalid result with the `Error en solucionador:` prefix), method
selection, dispatch, verification and result assembly.  The embedded matrix is square by
type; the square-ness check of `validateInput` cannot fire. -/
def solve (matrices : BuiltMatrices) : SolveResult :=
  if matrices.n = 0 then
    { isValid := false, error := some "Error en solucionador: Matriz del sistema vacía" }
  else if h : matrices.rhsLen = matrices.n then
    let A := matrices.systemMatrix
    let b : Fin matrices.n → ℚ := fun i => matrices.rightHandSide (Fin.cast h.symm i)
    let solverMethod := selectSolverMethod matrices
    let solution : MethodResult :=
      match solverMethod with
      | "direct_elimination" => gaussianElimination A b
      | "lu_decomposition" => luDecomposition A b
      | "cholesky" => choleskyDecomposition A b
      | "iterative_jacobi" => jacobiMethod A b
      | "iterative_gauss_seidel" => gaussSeidelMethod A b
      | "cramer" => cramerRule A b
      | "series_simple" => solveSeriesCircuit matrices
      | "parallel_simple" => solveParallelCircuit matrices
      | _ => gaussianElimination A b
    let verification := verifySolution A b solution.values
    { isValid := solution.isValid,
      error := solution.error,
      nodeVoltages := extractNodeVoltages solution.values matrices,
      branchCurrents := extractBranchCurrents solution.values matrices,
      solverMethod := solverMethod,
      iterations := solution.iterations,
      residual := verification.residualSq,
      convergence := solution.convergence,
      warnings :=
        if !verification.isValid then
          let r := verification.residualSq
          [s!"Verificación falló: residual = {r}"]
        else [] }
  else
    let n := matrices.n
    let m := matrices.rhsLen
    { isValid := false,
      error := some s!"Error en solucionador: Dimensiones inconsistentes: matriz {n}x{n}, RHS {m}" }

end EquationSolver

/-! ## OhmLawHelper power analysis (`src/utils/ohm_law_helper.js` lines 38-240) -/

/-- One entry of `results.componentValues` as written by `assignCurrentToComponent`. -/
structure CompValues where
  current : ℚ
  voltage : ℚ
  power : ℚ
  resistance : Option ℚ := none
  impedance : Impedance
deriving DecidableEq, Repr

namespace OhmLawHelper

/-- The thermal record of `calculateResistorThermal`. -/
structure ResistorThermal where
  temperature : ℚ
  temperatureRise : ℚ
  thermalResistance : ℚ
  derating : ℚ
  maxSafePower : ℚ
deriving DecidableEq, Repr

/-- `calculateResistorThermal`. -/
def calculateResistorThermal (resistor : Component) (power : ℚ) : ResistorThermal :=
  let thermalResistance : ℚ := 250
  let temperatureRise := power * thermalResistance
  let temperature := 25 + temperatureRise
  let derating : ℚ :=
    if temperature > 70 then max 0 (1 - (temperature - 70) / 100) else 1
  { temperature := temperature,
    temperatureRise := temperatureRise,
    thermalResistance := thermalResistance,
    derating := derating,
    maxSafePower := resistor.powerRating.getD (1/4) * derating }

/-- Per-component power record of `calculateComponentPowerAnalysis` (`thermal` is only
populated for resistors; the JS object starts it as `{}`). -/
structure CompPowerAnalysis where
  instantaneous : ℚ
  average : ℚ
  peak : ℚ
  rms : ℚ
  stored : ℚ := 0
  dissipated : ℚ := 0
  efficiency : ℚ := 100
  powerDensity : ℚ := 0
  thermal : Option ResistorThermal := none
deriving DecidableEq, Repr

/-- `calculateComponentPowerAnalysis`. -/
def calculateComponentPowerAnalysis (component : Component) (values : CompValues) :
    CompPowerAnalysis :=
  let instantaneous := values.power
  let base : CompPowerAnalysis :=
    { instantaneous := instantaneous, average := instantaneous,
      peak := instantaneous, rms := instantaneous }
  let voltage := values.voltage
  let current := values.current
  let analysis :=
    match component.type with
    | "resistor" =>
      { base with dissipated := instantaneous,
                  thermal := some (calculateResistorThermal component instantaneous) }
    | "capacitor" =>
      { base with stored := 1/2 * component.value * voltage * voltage, dissipated := 0 }
    | "inductor" =>
      { base with stored := 1/2 * component.value * current * current, dissipated := 0 }
    | "voltage" =>
      let efficiency := component.efficiency.getD 95
      { base with efficiency := efficiency,
                  dissipated := instantaneous * (1 - efficiency / 100) }
    | "current" =>
      let efficiency := component.efficiency.getD 95
      { base with efficiency := efficiency,
                  dissipated := instantaneous * (1 - efficiency / 100) }
    | _ => base
  match component.physicalSize with
  | some s => if s = 0 then analysis else { analysis with powerDensity := instantaneous / s }
  | none => analysis

/-- The `losses` sub-record. -/
structure Losses where
  resistive : ℚ := 0
  switching : ℚ := 0
  core : ℚ := 0
  other : ℚ := 0
deriving DecidableEq, Repr

/-- A thermal hotspot. -/
structure Hotspot where
  componentId : String
  componentLabel : String
  temperature : ℚ
  power : ℚ
deriving DecidableEq, Repr

/-- The record of `calculateThermalAnalysis`. -/
structure ThermalAnalysis where
  totalHeat : ℚ := 0
  hotspots : List Hotspot := []
  averageTemperature : ℚ := 25
  maxTemperature : ℚ := 25
  coolingRequired : ℚ := 0
  thermalTimeConstant : ℚ := 0
deriving DecidableEq, Repr

/-- The record of `calculatePowerAnalysis`. -/
structure PowerAnalysis where
  totalSupplied : ℚ := 0
  totalDissipated : ℚ := 0
  totalStored : ℚ := 0
  totalUseful : ℚ := 0
  efficiency : ℚ := 0
  powerFactor : ℚ := 1
  componentPowers : List (String × CompPowerAnalysis) := []
  powerBalance : ℚ := 0
  thermalAnalysis : ThermalAnalysis := {}
  losses : Losses := {}
deriving DecidableEq, Repr

/-- `calculateThermalAnalysis`. -/
def calculateThermalAnalysis (circuit : Circuit) (totalDissipated : ℚ)
    (componentPowers : List (String × CompPowerAnalysis)) : ThermalAnalysis :=
  let hotspots := componentPowers.foldl (fun hotspots p =>
    match circuit.components.find? (fun c => c.id = p.1) with
    | some component =>
      match p.2.thermal with
      | some thermal =>
        if thermal.temperature > 60 then
          hotspots ++ [{ componentId := p.1, componentLabel := component.label,
                         temperature := thermal.temperature,
                         power := p.2.instantaneous }]
        else hotspots
      | none => hotspots
    | none => hotspots) []
  { totalHeat := totalDissipated,
    hotspots := hotspots,
    maxTemperature := (hotspots.map (·.temperature)).foldl max 25,
    coolingRequired := if totalDissipated > 1 then totalDissipated * (1/10) else 0 }

/-- `calculatePowerAnalysis` (`ohm_law_helper.js` lines 38-105): walk the component
values, classify each component's power, then the totals, efficiency, balance and
thermal analysis. -/
def calculatePowerAnalysis (componentValues : List (String × CompValues))
    (circuit : Circuit) : PowerAnalysis :=
  let pa := componentValues.foldl (fun (pa : PowerAnalysis) entry =>
    match circuit.components.find? (fun c => c.id = entry.1) with
    | none => pa
    | some component =>
      let power := calculateComponentPowerAnalysis component entry.2
      let pa := { pa with componentPowers := pa.componentPowers ++ [(entry.1, power)] }
      match component.type with
      | "voltage" =>
        if power.instantaneous > 0 then
          { pa with totalSupplied := pa.totalSupplied + power.instantaneous }
        else pa
      | "current" =>
        if power.instantaneous > 0 then
          { pa with totalSupplied := pa.totalSupplied + power.instantaneous }
        else pa
      | "resistor" =>
        { pa with totalDissipated := pa.totalDissipated + power.instantaneous,
                  losses := { pa.losses with
                    resistive := pa.losses.resistive + power.instantaneous } }
      | "capacitor" => { pa with totalStored := pa.totalStored + |power.stored| }
      | "inductor" => { pa with totalStored := pa.totalStored + |power.stored| }
      | _ =>
        { pa with totalDissipated := pa.totalDissipated + |power.instantaneous|,
                  losses := { pa.losses with
                    other := pa.losses.other + |power.instantaneous| } }) {}
  let totalUseful := pa.totalSupplied - pa.totalDissipated
  let efficiency :=
    if pa.totalSupplied > 0 then totalUseful / pa.totalSupplied * 100 else 0
  let powerBalance := |pa.totalSupplied - pa.totalDissipated - pa.totalStored|
  { pa with totalUseful := totalUseful,
            efficiency := efficiency,
            powerBalance := powerBalance,
            thermalAnalysis :=
              calculateThermalAnalysis circuit pa.totalDissipated pa.componentPowers }

/-- The record of `validatePowerBalance`. -/
structure PowerBalance where
  isValid : Bool
  error : ℚ
  relativeError : ℚ
  tolerance : ℚ
  input : ℚ
  output : ℚ
deriving DecidableEq, Repr

/-- `validatePowerBalance` (1% tolerance). -/
def validatePowerBalance (powerAnalysis : PowerAnalysis) : PowerBalance :=
  let tolerance : ℚ := 1/100
  let totalInput := powerAnalysis.totalSupplied
  let totalOutput := powerAnalysis.totalDissipated + powerAnalysis.totalStored
  let error := |totalInput - totalOutput|
  let relativeError := if totalInput > 0 then error / totalInput * 100 else 0
  { isValid := relativeError < tolerance * 100,
    error := error,
    relativeError := relativeError,
    tolerance := tolerance,
    input := totalInput,
    output := totalOutput }

end OhmLawHelper

/-! ## CircuitAnalyzer (`src/utils/solver.js`)

The coordinator.  JS returns objects of varying shape (invalid results carry only
`isValid`/`error`/`warnings`); the embedding uses one record whose unset fields keep
their defaults.  `timestamp` (a JS `Date`) is modelled by a natural number supplied by
the caller; `fromCache`, absent on freshly computed results (falsy in JS), defaults to
`false`. -/

namespace CircuitAnalyzer

open NodeAnalyzer (NodeAnalysisResult)

/-- The analysis-result record assembled by `processResults` (also used, with defaults,
for the `isValid: false` early returns of `analyzeCircuit`). -/
structure AnalysisResults where
  isValid : Bool
  error : Option String := none
  method : Option String := none
  timestamp : ℕ := 0
  nodeVoltages : List (String × ℚ) := []
  branchCurrents : List (String × ℚ) := []
  componentValues : List (String × CompValues) := []
  currentFlow : List (String × ℚ) := []
  voltageDrops : List (String × ℚ) := []
  powerAnalysis : OhmLawHelper.PowerAnalysis := {}
  circuitType : Option String := none
  totalResistance : ℚ := 0
  totalCurrent : ℚ := 0
  totalPower : ℚ := 0
  sourceVoltage : ℚ := 0
  efficiency : ℚ := 0
  warnings : List String := []
  fromCache : Bool := false
deriving DecidableEq, Repr

/-- Result record of `validateComponent`. -/
structure ComponentValidation where
  isValid : Bool
  error : String
  warnings : List String
deriving DecidableEq, Repr

/-- `validateComponent` (`solver.js` lines 163-216): the value is a rational here, so
the JS `typeof`/`NaN` guard cannot fire; the type-specific checks follow the source
(note a resistance `≤ 0` triggers both the fatal error and, being `< 0.1`, the
low-resistance warning). -/
def validateComponent (component : Component) : ComponentValidation :=
  let errors : List String := []
  let warnings : List String := []
  let (errors, warnings) :=
    match component.type with
    | "resistor" =>
      let errors :=
        if component.value ≤ 0 then errors ++ ["La resistencia debe ser mayor que cero"]
        else errors
      let warnings :=
        if component.value < 1/10 then
          warnings ++ ["Resistencia muy baja: puede causar problemas numéricos"]
        else warnings
      let warnings :=
        if component.value > 1000000000000 then
          warnings ++ ["Resistencia muy alta: puede causar problemas numéricos"]
        else warnings
      (errors, warnings)
    | "voltage" =>
      (errors,
       if |component.value| > 1000 then
         warnings ++ ["Voltaje muy alto: verificar seguridad"]
       else warnings)
    | "current" =>
      (errors,
       if |component.value| > 100 then
         warnings ++ ["Corriente muy alta: verificar seguridad"]
       else warnings)
    | "capacitor" =>
      (if component.value ≤ 0 then errors ++ ["La capacitancia debe ser mayor que cero"]
       else errors, warnings)
    | "inductor" =>
      (if component.value ≤ 0 then errors ++ ["La inductancia debe ser mayor que cero"]
       else errors, warnings)
    | _ => (errors, warnings)
  { isValid := errors.length = 0,
    error := String.intercalate "; " errors,
    warnings := warnings }

/-- Result record of `validateCircuit` (the `componentCounts` summary it also carries is
never read downstream and is omitted). -/
structure CircuitValidation where
  isValid : Bool
  error : String
  warnings : List String
deriving DecidableEq, Repr

/-- The per-component step of `validateCircuit`'s loop: a failed component validation
appends the labelled fatal error, and the component's warnings are always collected. -/
def validateComponentStep (st : List String × List String) (component : Component) :
    List String × List String :=
  let componentValidation := validateComponent component
  let errors :=
    if !componentValidation.isValid then
      let lbl := component.label
      let msg := componentValidation.error
      st.1 ++ [s!"{lbl}: {msg}"]
    else st.1
  (errors, st.2 ++ componentValidation.warnings)

/-- `validateCircuit` (`solver.js` lines 95-158): structural presence checks, per-
component validation (fatal errors prefixed with the component label), and basic
wire-graph connectivity.  Warnings are filtered to non-empty strings as in the source. -/
def validateCircuit (circuit : Circuit) : CircuitValidation :=
  let errors : List String := []
  let warnings : List String := []
  let errors :=
    if circuit.components.length = 0 then errors ++ ["El circuito no contiene componentes"]
    else errors
  let voltageSources := circuit.components.filter (fun c => c.type = "voltage")
  let currentSources := circuit.components.filter (fun c => c.type = "current")
  let resistors := circuit.components.filter (fun c => c.type = "resistor")
  let grounds := circuit.components.filter (fun c => c.type = "ground")
  let errors :=
    if voltageSources.length = 0 ∧ currentSources.length = 0 then
      errors ++ ["El circuito debe tener al menos una fuente de voltaje o corriente"]
    else errors
  let warnings :=
    if resistors.length = 0 then
      warnings ++ ["Circuito sin resistencias: puede tener comportamiento inestable"]
    else warnings
  let warnings :=
    if grounds.length = 0 then
      warnings ++ ["No se encontró referencia a tierra: se asignará automáticamente"]
    else warnings
  let warnings :=
    if grounds.length > 1 then
      warnings ++ ["Múltiples referencias a tierra detectadas"]
    else warnings
  let st := circuit.components.foldl validateComponentStep (errors, warnings)
  let errors := st.1
  let warnings := st.2
  let connectivity := NodeAnalyzer.checkBasicConnectivity circuit
  let errors :=
    if !connectivity.isConnected then
      errors ++ ["Circuito contiene componentes desconectados"]
    else errors
  { isValid := errors.length = 0,
    error := String.intercalate "; " errors,
    warnings := warnings.filter (fun w => w.length > 0) }

/-- `selectOptimalMethod` (`solver.js` lines 221-253): special topologies first, then
the adjusted nodal/mesh equation-count comparison (JS numbers; the counts are naturals
but the differences can be negative, hence `ℤ`). -/
def selectOptimalMethod (nodeAnalysis : NodeAnalysisResult) : String :=
  if nodeAnalysis.topology.isSeriesCircuit then "series"
  else if nodeAnalysis.topology.isParallelCircuit then "parallel"
  else if nodeAnalysis.topology.isLadderCircuit then "ladder"
  else
    let nodalEquations : ℤ := (nodeAnalysis.nodeCount : ℤ) - 1
    let meshEquations : ℤ :=
      (nodeAnalysis.branchCount : ℤ) - (nodeAnalysis.nodeCount : ℤ) + 1
    let adjustedNodalComplexity :=
      nodalEquations + (nodeAnalysis.voltageSourceCount : ℤ) * 2
    let adjustedMeshComplexity :=
      meshEquations + (nodeAnalysis.currentSourceCount : ℤ) * 2
    if adjustedNodalComplexity ≤ adjustedMeshComplexity then
      if nodeAnalysis.voltageSourceCount > 0 then "nodal_modified" else "nodal"
    else
      if nodeAnalysis.currentSourceCount > 0 then "mesh_modified" else "mesh"

/-- Update the first list entry satisfying the predicate (JS mutates the object that
`find` returned). -/
def updateFirst {α : Type _} (p : α → Bool) (f : α → α) : List α → List α
  | [] => []
  | x :: xs => if p x then f x :: xs else x :: updateFirst p f xs

/-- Numeric indexing into a JS `Map` (`solution.branchCurrents[index]` in
`processResults`): a `Map`'s entries are not properties of the object, so the property
read yields `undefined` for every index. -/
def jsMapIndexRead (_m : List (String × ℚ)) (_index : ℕ) : Option ℚ := none

/-- `assignCurrentToComponent` (`solver.js` lines 322-342): compute V (electrical
model), P (`calculatePower(voltage, current)`, the two-argument form `|V·I|`), record
them in `componentValues`, and write the component's mutable `current`/`voltage`/`power`
fields. -/
def assignCurrentToComponent (componentId : String) (current : ℚ) (circuit : Circuit)
    (results : AnalysisResults) : Circuit × AnalysisResults :=
  match circuit.components.find? (fun c => c.id = componentId) with
  | none => (circuit, results)
  | some component =>
    let voltage := OhmLawHelper.calculateVoltage component current
    let power := OhmLawHelper.calculatePowerVI voltage current
    let compValues : CompValues :=
      { current := current,
        voltage := voltage,
        power := power,
        resistance := if component.type = "resistor" then some component.value else none,
        impedance := OhmLawHelper.calculateImpedance component }
    let newCompValues := alSet results.componentValues componentId compValues
    let results := { results with componentValues := newCompValues }
    let newComponents := updateFirst (fun c => c.id = componentId)
      (fun c => { c with current := current, voltage := voltage, power := power })
      circuit.components
    let circuit := { circuit with components := newComponents }
    (circuit, results)

/-- `calculateTotalMetrics` (`solver.js` lines 347-378).  In the parallel arm the JS
`Infinity` fallback (total admittance not positive) is unreachable for circuits that
passed validation — a non-positive resistance is a fatal validation error — and is
modelled as 0. -/
def calculateTotalMetrics (results : AnalysisResults) (circuit : Circuit) :
    AnalysisResults :=
  let resistors := circuit.components.filter (fun c => c.type = "resistor")
  let results :=
    if resistors.length > 0 ∧ results.method = some "series" then
      let total := (resistors.map (·.value)).sum
      { results with totalResistance := total }
    else if resistors.length > 0 ∧ results.method = some "parallel" then
      let totalAdmittance := (resistors.map (fun r => 1 / r.value)).sum
      let total := if totalAdmittance > 0 then 1 / totalAdmittance else 0
      { results with totalResistance := total }
    else results
  let voltageSources := circuit.components.filter (fun c => c.type = "voltage")
  let results : AnalysisResults :=
    match voltageSources with
    | [] => results
    | mainSource :: _ =>
      let sv := (voltageSources.map (fun c => c.value)).sum
      let results := { results with sourceVoltage := sv }
      match alGet results.componentValues mainSource.id with
      | some sourceValues => { results with totalCurrent := |sourceValues.current| }
      | none => results
  let tp := (results.componentValues.map (fun p : String × CompValues => |p.2.power|)).sum
  let results : AnalysisResults := { results with totalPower := tp }
  if results.powerAnalysis.totalSupplied > 0 then
    let eff := results.powerAnalysis.totalUseful / results.powerAnalysis.totalSupplied * 100
    { results with efficiency := eff }
  else results

/-- The per-branch step of `processResults`' loop: the branch current (always the
0-defaulted `undefined` Map read), the per-component assignment, and the wire current
flow. -/
def processBranchStep (solution : EquationSolver.SolveResult)
    (st : Circuit × AnalysisResults) (p : ℕ × NodeAnalyzer.Branch) :
    Circuit × AnalysisResults :=
  let current := (jsMapIndexRead solution.branchCurrents p.1).getD 0
  let results :=
    { st.2 with branchCurrents := alSet st.2.branchCurrents p.2.id current }
  let cr :=
    match p.2.componentId with
    | some componentId => assignCurrentToComponent componentId current st.1 results
    | none => (st.1, results)
  match p.2.wireId with
  | some wireId =>
    (cr.1, { cr.2 with currentFlow := alSet cr.2.currentFlow wireId current })
  | none => cr

/-- `processResults` (`solver.js` lines 258-317): node voltages by node order, branch
currents through the always-`undefined` numeric `Map` read (hence 0 per branch, see
`jsMapIndexRead`), per-component assignment (mutating the circuit), power analysis,
total metrics, and the power-balance warning. -/
def processResults (solution : EquationSolver.SolveResult) (circuit : Circuit)
    (nodeAnalysis : NodeAnalysisResult) (method : String) (now : ℕ) :
    AnalysisResults × Circuit :=
  let results : AnalysisResults :=
    { isValid := true,
      method := some method,
      timestamp := now,
      circuitType := some nodeAnalysis.topology.description }
  let nv := nodeAnalysis.nodes.enum.foldl
    (fun nv p => alSet nv p.2.id (solution.nodeVoltages.getD p.1 0))
    ([] : List (String × ℚ))
  let results := { results with nodeVoltages := nv }
  let st := nodeAnalysis.branches.enum.foldl (processBranchStep solution) (circuit, results)
  let circuit := st.1
  let results := st.2
  let results :=
    { results with powerAnalysis :=
        OhmLawHelper.calculatePowerAnalysis results.componentValues circuit }
  let results := calculateTotalMetrics results circuit
  let powerBalance := OhmLawHelper.validatePowerBalance results.powerAnalysis
  let results :=
    if |powerBalance.error| > 1/100 then
      let e := powerBalance.error
      { results with warnings := results.warnings ++ [s!"Desbalance de potencia: {e}W"] }
    else results
  (results, circuit)

/-- Result record of `validateResults`. -/
structure ResultsValidation where
  isValid : Bool
  warnings : List String
deriving DecidableEq, Repr

/-- `validateResults` (`solver.js` lines 383-411): extreme-value warnings per component
(the JS messages embed `toFixed` float formatting; here the exact rational is
interpolated) and the trivially-true Kirchhoff check. -/
def validateResults (results : AnalysisResults) : ResultsValidation :=
  let warnings := results.componentValues.foldl (fun warnings p =>
    let id := p.1
    let warnings :=
      if |p.2.current| > 1000 then
        let v := p.2.current
        warnings ++ [s!"Corriente muy alta en {id}: {v}A"]
      else warnings
    let warnings :=
      if |p.2.voltage| > 10000 then
        let v := p.2.voltage
        warnings ++ [s!"Voltaje muy alto en {id}: {v}V"]
      else warnings
    if |p.2.power| > 100000 then
      let v := p.2.power
      warnings ++ [s!"Potencia muy alta en {id}: {v}W"]
    else warnings) []
  -- `verifyKirchhoffCurrentLaw` always returns `{ isValid: true }`
  { isValid := warnings.length = 0, warnings := warnings }

/-- 32-bit signed wrap-around (`x & x` / `<<` coercion in JS). -/
def wrap32 (x : ℤ) : ℤ := (x + 2147483648) % 4294967296 - 2147483648

/-- Base-36 digits of a natural number, most significant first. -/
def natToBase36Aux (n : ℕ) (acc : List Char) : List Char :=
  if h : n = 0 then acc
  else
    let d := n % 36
    let c := if d < 10 then Char.ofNat (48 + d) else Char.ofNat (87 + d)
    natToBase36Aux (n / 36) (c :: acc)
termination_by n
decreasing_by exact Nat.div_lt_self (Nat.pos_of_ne_zero h) (by norm_num)

/-- `Number.prototype.toString(36)` for 32-bit integers. -/
def intToBase36 (z : ℤ) : String :=
  if z < 0 then "-" ++ String.mk (natToBase36Aux z.natAbs [])
  else if z = 0 then "0"
  else String.mk (natToBase36Aux z.toNat [])

/-- `simpleHash` (`solver.js` lines 452-460): the 32-bit rolling hash
`hash = ((hash << 5) - hash) + charCode` (wrapped to a signed 32-bit integer by the
shift and the `hash & hash` step), rendered in base 36.  Characters here are ASCII, so
`charCodeAt` agrees with the code point. -/
def simpleHash (str : String) : String :=
  let hash := str.data.foldl
    (fun hash c => wrap32 (wrap32 (hash * 32) - hash + c.toNat)) 0
  intToBase36 hash

/-- JSON rendering of a rational number.  Integers print exactly as `JSON.stringify`
prints integral JS numbers; non-integral values print as `num/den` (JS prints a decimal
expansion instead — only the hash-key *identity* of the string matters downstream, and
the map is still injective on values). -/
def ratJson (q : ℚ) : String :=
  if q.den = 1 then toString q.num else toString q.num ++ "/" ++ toString q.den

/-- JSON string literal (ids here contain no characters needing escapes). -/
def strJson (s : String) : String := "\"" ++ s ++ "\""

/-- JSON for a nullable string. -/
def optStrJson : Option String → String
  | some s => strJson s
  | none => "null"

/-- `JSON.stringify` of the `circuitData` object built by `generateCircuitHash`
(components as `{type, value, id}`, wires as `{start, end, resistance}` where
`start`/`end` are the wire's `startComponent`/`endComponent`). -/
def circuitDataJson (circuit : Circuit) : String :=
  let compJson := circuit.components.map (fun c =>
    "\x7b\"type\":" ++ strJson c.type ++ ",\"value\":" ++ ratJson c.value ++
      ",\"id\":" ++ strJson c.id ++ "\x7d")
  let wireJson := circuit.wires.map (fun w =>
    "\x7b\"start\":" ++ optStrJson w.startComponent ++ ",\"end\":" ++
      optStrJson w.endComponent ++ ",\"resistance\":" ++ ratJson w.resistance ++ "\x7d")
  "\x7b\"components\":[" ++ String.intercalate "," compJson ++ "],\"wires\":[" ++
    String.intercalate "," wireJson ++ "]\x7d"

/-- `generateCircuitHash` (`solver.js` lines 432-447): the rolling hash of the
serialized structural fingerprint — `(type, value, id)` per component and
`(startComponent, endComponent, resistance)` per wire.  The mutable electrical fields
do not enter the fingerprint. -/
def generateCircuitHash (circuit : Circuit) : String :=
  simpleHash (circuitDataJson circuit)

/-- `analyzeCircuit` (`solver.js` lines 25-90): cache lookup by structural fingerprint
(a hit returns the cached record spread together with `fromCache: true`), then
validation → node analysis → method selection → matrix build → solve →
result processing → physical checks, each failure short-circuiting to an
`isValid: false` result; a fully processed result is stored in the cache.  The
embedding passes the mutable state (circuit components and the cache) explicitly:
the result, the possibly-updated circuit, and the possibly-updated cache. -/
def analyzeCircuit (circuit : Circuit) (cache : List (String × AnalysisResults))
    (now : ℕ) : AnalysisResults × Circuit × List (String × AnalysisResults) :=
  let circuitHash := generateCircuitHash circuit
  match alGet cache circuitHash with
  | some cached => ({ cached with fromCache := true }, circuit, cache)
  | none =>
    let validation := validateCircuit circuit
    if !validation.isValid then
      ({ isValid := false, error := some validation.error,
         warnings := validation.warnings }, circuit, cache)
    else
      let nodeAnalysis := NodeAnalyzer.analyzeNodes circuit
      if !nodeAnalysis.isValid then
        ({ isValid := false, error := some nodeAnalysis.error }, circuit, cache)
      else
        let analysisMethod := selectOptimalMethod nodeAnalysis
        match CircuitMatrixBuilder.buildSystemMatrices nodeAnalysis analysisMethod with
        | .error e => ({ isValid := false, error := some e }, circuit, cache)
        | .ok matrices =>
          let solution := EquationSolver.solve matrices
          if !solution.isValid then
            ({ isValid := false, error := solution.error }, circuit, cache)
          else
            let pr := processResults solution circuit nodeAnalysis analysisMethod now
            let results := pr.1
            let circuit := pr.2
            let validation2 := validateResults results
            let results :=
              if !validation2.isValid then
                { results with warnings := results.warnings ++ validation2.warnings }
              else results
            (results, circuit, alSet cache circuitHash results)

end CircuitAnalyzer

/-! ## Specification-side definitions

The definitions of this block transcribe formulas exactly as the specification words
them, for comparison against the source-derived definitions above. -/

/-- The mesh impedance matrix as the specification describes it: diagonal `(i,i)` sums
the impedances of mesh `i`, off-diagonal `(i,j)` is the **negative** of the sum of the
impedances shared between meshes `i` and `j`. -/
def meshImpedanceMatrixSpec (meshes : List NodeAnalyzer.Mesh) :
    Matrix (Fin meshes.length) (Fin meshes.length) ℚ :=
  fun i j =>
    if i = j then ((meshes.get i).branches.map (fun b => b.impedance.re)).sum
    else
      -((CircuitMatrixBuilder.findSharedBranches (meshes.get i) (meshes.get j)).map
        (fun b => b.impedance.re)).sum

/-- The voltage-source output as the specification words it: the nominal value minus
`I·R_internal`, clamped to `[-compliance, compliance]`. -/
def sourceVoltageSpec (value internalResistance compliance current : ℚ) : ℚ :=
  max (-compliance) (min compliance (value - current * internalResistance))

/-- The node reached from `startNode` by traversing the branch sequence in order
(each branch is left through the endpoint that was not entered). -/
def walkEndNode (branches : List NodeAnalyzer.Branch) (startNode : String) : String :=
  branches.foldl
    (fun cur b => if b.startNodeId = cur then b.endNodeId else b.startNodeId) startNode

/-- Closed-walk test as the specification words it: the branch sequence returns to the
node where the walk started. -/
def meshIsClosedWalk (mesh : List NodeAnalyzer.Branch) (startNode : String) : Bool :=
  walkEndNode mesh startNode = startNode

/-! ## Concrete fixtures

A three-component series demo circuit (12 V source, 1 kΩ resistor, ground, three
1 Ω wires) traced through the whole pipeline, plus small inputs exercising individual
functions. -/

def cV1 : Component :=
  { id := "V1", type := "voltage", label := "V1", x := 0, y := 0, value := 12 }

def cR1 : Component :=
  { id := "R1", type := "resistor", label := "R1", x := 100, y := 0, value := 1000 }

def cG : Component :=
  { id := "G", type := "ground", label := "G", x := -60, y := 0, value := 0 }

def w1 : Wire :=
  { id := "w1", start := ⟨30, 0⟩, endPt := ⟨70, 0⟩, resistance := 1,
    startComponent := some "V1", endComponent := some "R1" }

def w2 : Wire :=
  { id := "w2", start := ⟨130, 0⟩, endPt := ⟨-30, 0⟩, resistance := 1,
    startComponent := some "R1", endComponent := some "V1" }

def w3 : Wire :=
  { id := "w3", start := ⟨-90, 0⟩, endPt := ⟨-30, 0⟩, resistance := 1,
    startComponent := some "G", endComponent := some "V1" }

def testCircuit : Circuit := { components := [cV1, cR1, cG], wires := [w1, w2, w3] }

def e0 : NodeAnalyzer.ENode :=
  { id := "enode_0", x := -30, y := 0, physicalNodes := ["node_0"],
    components := [⟨"V1", cV1, 0⟩, ⟨"G", cG, 1⟩], wires := ["w2", "w3"],
    connections := ["enode_3", "enode_4", "enode_1"], isGround := true, type := "ground" }

def e1 : NodeAnalyzer.ENode :=
  { id := "enode_1", x := 30, y := 0, physicalNodes := ["node_1"],
    components := [⟨"V1", cV1, 1⟩], wires := ["w1"],
    connections := ["enode_2", "enode_0"], type := "simple_connection" }

def e2 : NodeAnalyzer.ENode :=
  { id := "enode_2", x := 70, y := 0, physicalNodes := ["node_2"],
    components := [⟨"R1", cR1, 0⟩], wires := ["w1"],
    connections := ["enode_1", "enode_3"], type := "simple_connection" }

def e3 : NodeAnalyzer.ENode :=
  { id := "enode_3", x := 130, y := 0, physicalNodes := ["node_3"],
    components := [⟨"R1", cR1, 1⟩], wires := ["w2"],
    connections := ["enode_0", "enode_2"], type := "simple_connection" }

def e4 : NodeAnalyzer.ENode :=
  { id := "enode_4", x := -90, y := 0, physicalNodes := ["node_4"],
    components := [⟨"G", cG, 0⟩], wires := ["w3"],
    connections := ["enode_0"], isGround := true, type := "ground" }

def b0 : NodeAnalyzer.Branch :=
  { id := "branch_0", type := "voltage", componentId := some "V1", component := some cV1,
    startNodeId := "enode_0", endNodeId := "enode_1", impedance := ⟨0, 0⟩ }

def b1 : NodeAnalyzer.Branch :=
  { id := "branch_1", type := "resistor", componentId := some "R1", component := some cR1,
    startNodeId := "enode_2", endNodeId := "enode_3", impedance := ⟨1000, 0⟩ }

def b2 : NodeAnalyzer.Branch :=
  { id := "branch_2", type := "wire", wireId := some "w1",
    startNodeId := "enode_1", endNodeId := "enode_2", impedance := ⟨1, 0⟩ }

def b3 : NodeAnalyzer.Branch :=
  { id := "branch_3", type := "wire", wireId := some "w2",
    startNodeId := "enode_3", endNodeId := "enode_0", impedance := ⟨1, 0⟩ }

def b4 : NodeAnalyzer.Branch :=
  { id := "branch_4", type := "wire", wireId := some "w3",
    startNodeId := "enode_4", endNodeId := "enode_0", impedance := ⟨1, 0⟩ }

/-- The node-analysis record `analyzeNodes` produces for `testCircuit` (verified by
`na_eq` below). -/
def naVal : NodeAnalyzer.NodeAnalysisResult :=
  { isValid := true, error := "",
    nodes := [e0, e1, e2, e3, e4],
    branches := [b0, b1, b2, b3, b4],
    topology :=
      { description := "serie", isSeriesCircuit := true, hasLoops := true, loopCount := 1,
        meshes := [{ id := "mesh_0", branches := [b0, b2, b1, b3],
                     nodes := ["enode_0", "enode_1", "enode_2", "enode_3"] }],
        criticalNodes :=
          [{ nodeId := "enode_0", reason := "referencia (ground)", connections := 3 },
           { nodeId := "enode_1", reason := "conectado a fuente", connections := 2 },
           { nodeId := "enode_4", reason := "referencia (ground)", connections := 1 }] },
    nodeCount := 5, branchCount := 5, voltageSourceCount := 1, currentSourceCount := 0,
    statistics := { isolatedNodes := 0, junctionNodes := 1, terminalNodes := 1 } }

/-- The matrices record `buildSystemMatrices` produces for `naVal` with the `series`
method (verified by `m_eq` below). -/
def mVal : CircuitMatrixBuilder.BuiltMatrices :=
  { method := "series", n := 1, rhsLen := 1,
    systemMatrix := fun _ _ => 1000,
    rightHandSide := fun _ => 12,
    nodeIndexMap := [("enode_1", 0), ("enode_2", 1), ("enode_3", 2), ("enode_4", 3)],
    branchIndexMap := [("branch_0", 0), ("branch_1", 1), ("branch_2", 2),
                       ("branch_3", 3), ("branch_4", 4)],
    groundNodeId := some "enode_0",
    nodeCount := 4, branchCount := 5,
    dimensions := { rows := 1, cols := 1, varCount := 1,
                    totalResistance := 1000, totalVoltage := 12 },
    conditioning := some { determinant := 1000, rank := 1, isDiagonallyDominant := true,
                           isSymmetric := true, isSingular := false, warning := none } }

/-- The solve record for `mVal` (verified by `s_eq` below): `I = 12 V / 1000 Ω`. -/
def sVal : EquationSolver.SolveResult :=
  { isValid := true,
    nodeVoltages := [3/250, 0, 0, 0, 0],
    branchCurrents := [("branch_0", 3/250), ("branch_1", 3/250), ("branch_2", 3/250),
                       ("branch_3", 3/250), ("branch_4", 3/250)],
    solverMethod := "series_simple" }

/-- The analysis record `processResults` produces for the demo solve (verified by
`r_eq` below); every branch current is 0 (see `jsMapIndexRead`). -/
def rVal : CircuitAnalyzer.AnalysisResults :=
  { isValid := true, method := some "series", timestamp := 1,
    nodeVoltages := [("enode_0", 3/250), ("enode_1", 0), ("enode_2", 0),
                     ("enode_3", 0), ("enode_4", 0)],
    branchCurrents := [("branch_0", 0), ("branch_1", 0), ("branch_2", 0),
                       ("branch_3", 0), ("branch_4", 0)],
    componentValues :=
      [("V1", { current := 0, voltage := 12, power := 0, impedance := ⟨0, 0⟩ }),
       ("R1", { current := 0, voltage := 0, power := 0, resistance := some 1000,
                impedance := ⟨1000, 0⟩ })],
    currentFlow := [("w1", 0), ("w2", 0), ("w3", 0)],
    powerAnalysis :=
      { componentPowers :=
          [("V1", { instantaneous := 0, average := 0, peak := 0, rms := 0,
                    efficiency := 95 }),
           ("R1", { instantaneous := 0, average := 0, peak := 0, rms := 0,
                    thermal := some { temperature := 25, temperatureRise := 0,
                                      thermalResistance := 250, derating := 1,
                                      maxSafePower := 1/4 } })] },
    circuitType := some "serie",
    totalResistance := 1000, sourceVoltage := 12 }

/-- The circuit as mutated by the demo analysis: the source's `voltage` field is set to
12, the resistor's electrical fields to 0 (verified by `r_eq` below). -/
def cVal : Circuit :=
  { components := [{ cV1 with voltage := 12 },
                   { cR1 with current := 0, voltage := 0, power := 0 }, cG],
    wires := [w1, w2, w3] }

/-- A resistor shared between two meshes (its `impedance.real` is 3). -/
def sharedBranch : NodeAnalyzer.Branch :=
  { id := "branch_s", type := "resistor", startNodeId := "na", endNodeId := "nb",
    impedance := ⟨3, 0⟩ }

def meshA : NodeAnalyzer.Mesh :=
  { id := "mesh_0", branches := [sharedBranch], nodes := ["na", "nb"] }

def meshB : NodeAnalyzer.Mesh :=
  { id := "mesh_1", branches := [sharedBranch], nodes := ["na", "nb"] }

/-- Two meshes sharing `sharedBranch`. -/
def twoMeshes : List NodeAnalyzer.Mesh := [meshA, meshB]

/-- An open three-branch path `n0 → n1 → n2 → n3` (no branch returns to `n0`). -/
def pathB0 : NodeAnalyzer.Branch :=
  { id := "branch_p0", type := "wire", startNodeId := "n0", endNodeId := "n1",
    impedance := ⟨1, 0⟩ }

def pathB1 : NodeAnalyzer.Branch :=
  { id := "branch_p1", type := "wire", startNodeId := "n1", endNodeId := "n2",
    impedance := ⟨1, 0⟩ }

def pathB2 : NodeAnalyzer.Branch :=
  { id := "branch_p2", type := "wire", startNodeId := "n2", endNodeId := "n3",
    impedance := ⟨1, 0⟩ }

def openPath : List NodeAnalyzer.Branch := [pathB0, pathB1, pathB2]

/-- The 4×4 identity: symmetric and positive definite. -/
def idMatrixFour : Matrix (Fin 4) (Fin 4) ℚ := fun i j => if i = j then 1 else 0

/-- A nodal matrices record around `idMatrixFour`, with the conditioning produced by
`checkMatrixConditioning` exactly as the pipeline attaches it. -/
def nodalFixture : CircuitMatrixBuilder.BuiltMatrices :=
  { method := "nodal", n := 4, rhsLen := 4,
    systemMatrix := idMatrixFour,
    rightHandSide := fun _ => 1,
    nodeIndexMap := [("na_0", 0), ("na_1", 1), ("na_2", 2), ("na_3", 3)],
    branchIndexMap := [("branch_x", 0), ("branch_y", 1)],
    groundNodeId := some "na_g",
    nodeCount := 4, branchCount := 2,
    dimensions := { rows := 4, cols := 4, varCount := 4 },
    conditioning := some (CircuitMatrixBuilder.checkMatrixConditioning idMatrixFour) }

/-- The demo circuit with the resistor value set to 0. -/
def cR0 : Component :=
  { id := "R1", type := "resistor", label := "R1", x := 100, y := 0, value := 0 }

def zeroResCircuit : Circuit := { components := [cV1, cR0, cG], wires := [w1, w2, w3] }

/-- A node-analysis record with no special topology: 4 nodes, 6 branches, one voltage
source (nodal complexity 3 + 2 = 5, mesh complexity 3 + 0 = 3, so mesh wins). -/
def generalNA : NodeAnalyzer.NodeAnalysisResult :=
  { isValid := true, nodes := [], branches := [],
    topology := { description := "general" },
    nodeCount := 4, branchCount := 6, voltageSourceCount := 1, currentSourceCount := 0 }

namespace EquationSolver

/-- Invariant carried by the forward elimination at pivot index `i`: entries below the
diagonal in the already-processed columns are 0, and the processed diagonal entries have
magnitude at least the tolerance. -/
def ElimInv {n : ℕ} (i : ℕ) (A : Matrix (Fin n) (Fin n) ℚ) : Prop :=
  (∀ r c : Fin n, c.val < i → c < r → A r c = 0) ∧
  (∀ d : Fin n, d.val < i → tolerance ≤ |A d d|)

end EquationSolver

/-! ## Properties of the direct solvers

The elimination performed by `gaussianElimination` (and by `luDecomposition` on its `U`
component) consists of row swaps and of subtracting multiples of the pivot row — both
determinant-preserving up to sign — and aborts unless every pivot magnitude reaches the
tolerance; a run that completes therefore exhibits an upper-triangular matrix with
nonzero diagonal and the input matrix cannot have been singular.  The lemmas below make
this precise. -/

namespace EquationSolver

/-- The first component of the gaussian elimination fold is the pure matrix fold. -/
theorem foldl_elimStep_fst {n : ℕ} (i : Fin n) (ks : List (Fin n))
    (st : Matrix (Fin n) (Fin n) ℚ × (Fin n → ℚ)) :
    (ks.foldl (elimStep i) st).1 = ks.foldl (elimRowOp i) st.1 := by
  induction ks generalizing st with
  | nil => rfl
  | cons k ks ih => simpa [List.foldl_cons] using ih (elimStep i st k)

/-- The second component of the LU elimination fold is the pure matrix fold. -/
theorem foldl_luStep_snd {n : ℕ} (i : Fin n) (ks : List (Fin n))
    (st : Matrix (Fin n) (Fin n) ℚ × Matrix (Fin n) (Fin n) ℚ) :
    (ks.foldl (luStep i) st).2 = ks.foldl (elimRowOp i) st.2 := by
  induction ks generalizing st with
  | nil => rfl
  | cons k ks ih => simpa [List.foldl_cons] using ih (luStep i st k)

/-- Members of `(List.finRange n).drop (i+1)` lie strictly above `i`. -/
theorem mem_finRange_drop {n i : ℕ} {k : Fin n}
    (hk : k ∈ (List.finRange n).drop (i + 1)) : i < k.val := by
  obtain ⟨j, hj, hget⟩ := List.getElem_of_mem hk
  have hlen : (List.finRange n).length = n := List.length_finRange n
  rw [List.getElem_drop] at hget
  subst hget
  simp only [List.getElem_finRange]
  simp [Fin.val_cast_of_lt]
  omega

/-- The pivot row returned by `pivotRowF` is at or below row `i`. -/
theorem le_pivotRowF {n : ℕ} (A : Matrix (Fin n) (Fin n) ℚ) (i : Fin n) :
    i ≤ pivotRowF A i := by
  unfold pivotRowF
  have : ∀ (ks : List (Fin n)) (acc : Fin n), i ≤ acc →
      (∀ k ∈ ks, i ≤ k) → i ≤ ks.foldl (fun maxRow k =>
        if |A maxRow i| < |A k i| then k else maxRow) acc := by
    intro ks
    induction ks with
    | nil => intro acc h _; exact h
    | cons k ks ih =>
      intro acc hacc hks
      rw [List.foldl_cons]
      refine ih _ ?_ (fun j hj => hks j (List.mem_cons_of_mem k hj))
      by_cases hcmp : |A acc i| < |A k i|
      · simp [hcmp]; exact hks k (List.mem_cons_self k ks)
      · simpa [hcmp] using hacc
  refine this _ i le_rfl (fun k hk => ?_)
  exact le_of_lt (Fin.lt_def.mpr (mem_finRange_drop hk))

/-- Row swaps preserve vanishing of the determinant. -/
theorem swap_det_zero_iff {n : ℕ} (A : Matrix (Fin n) (Fin n) ℚ) (σ : Equiv.Perm (Fin n)) :
    (A.submatrix σ id).det = 0 ↔ A.det = 0 := by
  rw [Matrix.det_permute]
  rcases Int.units_eq_one_or (Equiv.Perm.sign σ) with h | h <;> simp [h]

/-- Combined effect of the inner elimination fold `ks.foldl (elimRowOp fi) A1` when all
`k ∈ ks` lie strictly below the pivot row: columns left of the pivot and rows up to the
pivot are untouched, zeros already present in the pivot column persist, every processed
row gets a zero in the pivot column, and the determinant is unchanged. -/
theorem elimFold_props {n : ℕ} (fi : Fin n) :
    ∀ (ks : List (Fin n)) (A1 : Matrix (Fin n) (Fin n) ℚ),
      (∀ r c : Fin n, c.val < fi.val → c < r → A1 r c = 0) →
      A1 fi fi ≠ 0 →
      (∀ k ∈ ks, fi < k) →
      (∀ r c : Fin n, r.val ≤ fi.val → ks.foldl (elimRowOp fi) A1 r c = A1 r c) ∧
      (∀ r c : Fin n, c.val < fi.val → ks.foldl (elimRowOp fi) A1 r c = A1 r c) ∧
      (∀ r : Fin n, fi < r → A1 r fi = 0 → ks.foldl (elimRowOp fi) A1 r fi = 0) ∧
      (∀ k ∈ ks, ks.foldl (elimRowOp fi) A1 k fi = 0) ∧
      (ks.foldl (elimRowOp fi) A1).det = A1.det := by
  intro ks
  induction ks with
  | nil => intro A1 _ _ _; exact ⟨fun _ _ _ => rfl, fun _ _ _ => rfl,
      fun _ _ h => h, fun k hk => absurd hk (List.not_mem_nil k), rfl⟩
  | cons k ks ih =>
    intro A1 hzero hfi hks
    have hk : fi < k := hks k (List.mem_cons_self k ks)
    have hkne : k ≠ fi := Fin.ne_of_gt hk
    -- the one-step update
    set A2 := elimRowOp fi A1 k with hA2
    have hstep_le : ∀ r c : Fin n, r.val ≤ fi.val → A2 r c = A1 r c := by
      intro r c hr
      have : r ≠ k := by
        intro h; subst h; exact absurd (Fin.lt_def.mp hk) (by omega)
      simp [hA2, elimRowOp, this]
    have hstep_left : ∀ r c : Fin n, c.val < fi.val → A2 r c = A1 r c := by
      intro r c hc
      have : ¬(fi ≤ c) := by
        intro h; exact absurd (Fin.le_def.mp h) (by omega)
      simp [hA2, elimRowOp, this]
    have hstep_row_fi : ∀ c : Fin n, A2 fi c = A1 fi c := fun c =>
      hstep_le fi c le_rfl
    have hzero2 : ∀ r c : Fin n, c.val < fi.val → c < r → A2 r c = 0 := by
      intro r c hc hcr
      rw [hstep_left r c hc]; exact hzero r c hc hcr
    have hfi2 : A2 fi fi ≠ 0 := by rw [hstep_row_fi]; exact hfi
    have hstep_colfi : ∀ r : Fin n, A1 r fi = 0 → A2 r fi = 0 := by
      intro r hr
      by_cases hrk : r = k
      · subst hrk
        simp [hA2, elimRowOp, le_refl, hr]
      · simp [hA2, elimRowOp, hrk, hr]
    have hstep_k : A2 k fi = 0 := by
      simp only [hA2, elimRowOp, le_refl, and_true, true_and, and_self, if_true]
      rw [div_mul_cancel₀ _ hfi, sub_self]
    have hdet2 : A2.det = A1.det := by
      have hform : A2 = A1.updateRow k (A1 k + (-(A1 k fi / A1 fi fi)) • A1 fi) := by
        funext r c
        by_cases hrk : r = k
        · subst hrk
          by_cases hc : fi ≤ c
          · simp [hA2, elimRowOp, hc, Matrix.updateRow_self]
            ring
          · have hcv : c.val < fi.val := by
              have := Fin.le_def.not.mp hc; omega
            have h1 : A1 fi c = 0 := by
              refine hzero fi c hcv (Fin.lt_def.mpr ?_)
              exact Nat.lt_of_lt_of_le hcv le_rfl
            simp [hA2, elimRowOp, hc, Matrix.updateRow_self, h1]
        · simp [hA2, elimRowOp, hrk, Matrix.updateRow_ne hrk]
      rw [hform]
      exact Matrix.det_updateRow_add_smul_self A1 hkne _
    -- apply the induction hypothesis to the updated matrix
    obtain ⟨ih_le, ih_left, ih_colfi, ih_mem, ih_det⟩ :=
      ih A2 hzero2 hfi2 (fun j hj => hks j (List.mem_cons_of_mem k hj))
    rw [List.foldl_cons]
    refine ⟨?_, ?_, ?_, ?_, ?_⟩
    · intro r c hr; rw [ih_le r c hr, hstep_le r c hr]
    · intro r c hc; rw [ih_left r c hc, hstep_left r c hc]
    · intro r hr h0; exact ih_colfi r hr (hstep_colfi r h0)
    · intro j hj
      rcases List.mem_cons.mp hj with hjk | hjm
      · subst hjk; exact ih_colfi j hk hstep_k
      · exact ih_mem j hjm
    · rw [ih_det, hdet2]

/-- Every row index strictly above `i` appears in `(List.finRange n).drop (i+1)`. -/
theorem mem_drop_finRange_of_lt {n i : ℕ} {r : Fin n} (hr : i < r.val) :
    r ∈ (List.finRange n).drop (i + 1) := by
  have hlen : ((List.finRange n).drop (i + 1)).length = n - (i + 1) := by
    simp [List.length_drop]
  have hj : r.val - (i + 1) < n - (i + 1) := by omega
  refine List.mem_iff_getElem.mpr ⟨r.val - (i + 1), by omega, ?_⟩
  rw [List.getElem_drop]
  simp only [List.getElem_finRange]
  apply Fin.ext
  simp [Fin.val_cast_of_lt]
  omega

/-- The row swap at pivot `i` preserves the invariant (both swapped rows lie at or
below row `i`), fixes the rows above `i`, and preserves vanishing of the
determinant. -/
theorem swapMat_props {n : ℕ} (A : Matrix (Fin n) (Fin n) ℚ) (fi : Fin n)
    (hinv : ElimInv fi.val A) :
    ElimInv fi.val (swapMat A fi) ∧
    (∀ d : Fin n, d.val < fi.val → swapMat A fi d d = A d d) ∧
    ((swapMat A fi).det = 0 ↔ A.det = 0) := by
  have hle : fi.val ≤ (pivotRowF A fi).val := Fin.le_def.mp (le_pivotRowF A fi)
  unfold swapMat
  by_cases hid : pivotRowF A fi = fi
  · simp only [hid, if_pos rfl]
    exact ⟨hinv, fun _ _ => rfl, Iff.rfl⟩
  · rw [if_neg hid]
    have hσfix : ∀ d : Fin n, d.val < fi.val → Equiv.swap fi (pivotRowF A fi) d = d := by
      intro d hd
      refine Equiv.swap_apply_of_ne_of_ne ?_ ?_
      · exact Fin.ne_of_lt (Fin.lt_def.mpr hd)
      · exact Fin.ne_of_lt (Fin.lt_def.mpr (by omega))
    have hσge : ∀ r c : Fin n, c.val < fi.val → c < r →
        c < Equiv.swap fi (pivotRowF A fi) r := by
      intro r c hc hcr
      by_cases h1 : r = fi
      · subst h1
        rw [Equiv.swap_apply_left]
        exact Fin.lt_def.mpr (by omega)
      · by_cases h2 : r = pivotRowF A fi
        · subst h2
          rw [Equiv.swap_apply_right]
          exact Fin.lt_def.mpr hc
        · rw [Equiv.swap_apply_of_ne_of_ne h1 h2]
          exact hcr
    refine ⟨⟨?_, ?_⟩, ?_, swap_det_zero_iff A _⟩
    · intro r c hc hcr
      exact hinv.1 _ c hc (hσge r c hc hcr)
    · intro d hd
      show tolerance ≤ |A (Equiv.swap fi (pivotRowF A fi) d) d|
      rw [hσfix d hd]
      exact hinv.2 d hd
    · intro d hd
      show A (Equiv.swap fi (pivotRowF A fi) d) d = A d d
      rw [hσfix d hd]

/-- One full forward-elimination stage (swap then eliminate below) advances the
invariant and preserves vanishing of the determinant, provided the pivot check
passed. -/
theorem elimStage_props {n : ℕ} (A : Matrix (Fin n) (Fin n) ℚ) (i : ℕ) (hi : i < n)
    (hinv : ElimInv i A)
    (hpiv : ¬ |swapMat A ⟨i, hi⟩ ⟨i, hi⟩ ⟨i, hi⟩| < tolerance) :
    ElimInv (i + 1)
      (((List.finRange n).drop (i + 1)).foldl (elimRowOp ⟨i, hi⟩) (swapMat A ⟨i, hi⟩)) ∧
    ((((List.finRange n).drop (i + 1)).foldl (elimRowOp ⟨i, hi⟩)
        (swapMat A ⟨i, hi⟩)).det = 0 ↔ A.det = 0) := by
  set fi : Fin n := ⟨i, hi⟩ with hfi_def
  have hfival : fi.val = i := rfl
  obtain ⟨hinv1, _, hdet1⟩ := swapMat_props A fi (by rwa [hfival])
  have htol : tolerance ≤ |swapMat A fi fi fi| := le_of_not_lt hpiv
  have hfi0 : swapMat A fi fi fi ≠ 0 := by
    intro h
    rw [h] at htol
    norm_num [tolerance] at htol
  obtain ⟨h_le, h_left, _, h_mem, h_det⟩ :=
    elimFold_props fi ((List.finRange n).drop (i + 1)) (swapMat A fi) hinv1.1 hfi0
      (fun k hk => Fin.lt_def.mpr (mem_finRange_drop hk))
  set A2 := ((List.finRange n).drop (i + 1)).foldl (elimRowOp fi) (swapMat A fi)
  refine ⟨⟨?_, ?_⟩, ?_⟩
  · intro r c hc hcr
    rcases Nat.lt_succ_iff_lt_or_eq.mp hc with hc' | hc'
    · rw [h_left r c hc']
      exact hinv1.1 r c hc' hcr
    · have hcfi : c = fi := Fin.ext hc'
      subst hcfi
      exact h_mem r (mem_drop_finRange_of_lt (Fin.lt_def.mp hcr))
  · intro d hd
    rcases Nat.lt_succ_iff_lt_or_eq.mp hd with hd' | hd'
    · have : A2 d d = swapMat A fi d d := h_le d d (le_of_lt hd')
      rw [this]
      exact hinv1.2 d hd'
    · have hdfi : d = fi := Fin.ext hd'
      subst hdfi
      have : A2 fi fi = swapMat A fi fi fi := h_le fi fi le_rfl
      rw [this]
      exact htol
  · rw [h_det]
    exact hdet1

/-- If the gaussian forward phase completes, the input matrix was nonsingular. -/
theorem forwardElimAux_ok_det {n : ℕ} :
    ∀ (gas i : ℕ),
      ∀ (A : Matrix (Fin n) (Fin n) ℚ) (b : Fin n → ℚ)
        (st : Matrix (Fin n) (Fin n) ℚ × (Fin n → ℚ)),
        n ≤ i + gas → ElimInv i A → forwardElimAux A b i gas = .ok st →
        (st.1.det = 0 ↔ A.det = 0) ∧ ElimInv n st.1 := by
  intro gas
  induction gas with
  | zero =>
    intro i A b st hni hinv hok
    rw [forwardElimAux] at hok
    cases hok
    exact ⟨Iff.rfl, ⟨fun r c hc => hinv.1 r c (by omega),
      fun d hd => hinv.2 d (by omega)⟩⟩
  | succ gas ih =>
    intro i A b st hni hinv hok
    rw [forwardElimAux] at hok
    by_cases hi : i < n
    · rw [dif_pos hi] at hok
      by_cases hpiv : |swapMat A ⟨i, hi⟩ ⟨i, hi⟩ ⟨i, hi⟩| < tolerance
      · rw [if_pos hpiv] at hok
        cases hok
      · rw [if_neg hpiv] at hok
        rw [foldl_elimStep_fst] at hok
        obtain ⟨hinv2, hdet2⟩ := elimStage_props A i hi hinv hpiv
        obtain ⟨hiff, hinvn⟩ := ih (i + 1) _ _ st (by omega) hinv2 hok
        exact ⟨hiff.trans hdet2, hinvn⟩
    · rw [dif_neg hi] at hok
      cases hok
      exact ⟨Iff.rfl, ⟨fun r c hc => hinv.1 r c (by omega),
        fun d hd => hinv.2 d (by omega)⟩⟩

/-- Any error of the gaussian forward phase is the small-pivot message for some
position. -/
theorem forwardElimAux_error_shape {n : ℕ} :
    ∀ (gas i : ℕ),
      ∀ (A : Matrix (Fin n) (Fin n) ℚ) (b : Fin n → ℚ) (msg : String),
        forwardElimAux A b i gas = .error msg →
        ∃ j : ℕ, i ≤ j ∧ j < n ∧
          msg = s!"Elemento pivote muy pequeño en posición ({j}, {j})" := by
  intro gas
  induction gas with
  | zero =>
    intro i A b msg herr
    rw [forwardElimAux] at herr
    cases herr
  | succ gas ih =>
    intro i A b msg herr
    rw [forwardElimAux] at herr
    by_cases hi : i < n
    · rw [dif_pos hi] at herr
      by_cases hpiv : |swapMat A ⟨i, hi⟩ ⟨i, hi⟩ ⟨i, hi⟩| < tolerance
      · rw [if_pos hpiv] at herr
        exact ⟨i, le_rfl, hi, (Except.error.inj herr).symm⟩
      · rw [if_neg hpiv] at herr
        obtain ⟨j, hij, hjn, hmsg⟩ := ih (i + 1) _ _ msg herr
        exact ⟨j, by omega, hjn, hmsg⟩
    · rw [dif_neg hi] at herr
      cases herr

/-- A matrix satisfying the completed invariant is upper triangular with pivots of
magnitude at least the tolerance, hence nonsingular. -/
theorem det_ne_zero_of_elimInv {n : ℕ} (A : Matrix (Fin n) (Fin n) ℚ)
    (hinv : ElimInv n A) : A.det ≠ 0 := by
  have hut : A.det = ∏ d, A d d := by
    refine Matrix.det_of_upperTriangular ?_
    intro r c hcr
    exact hinv.1 r c c.2 hcr
  rw [hut]
  refine Finset.prod_ne_zero_iff.mpr (fun d _ => ?_)
  intro h0
  have := hinv.2 d d.2
  rw [h0] at this
  norm_num [tolerance] at this

/-- `gaussianElimination` on a singular system returns, for some pivot position, the
explicit invalid result with the small-pivot message and the zero-filled solution. -/
theorem gaussianElimination_singular {n : ℕ} (A : Matrix (Fin n) (Fin n) ℚ)
    (b : Fin n → ℚ) (hdet : A.det = 0) :
    ∃ j : ℕ, j < n ∧
      gaussianElimination A b =
        { isValid := false,
          error := some
            s!"Error en eliminación gaussiana: Elemento pivote muy pequeño en posición ({j}, {j})",
          values := List.replicate n 0,
          method := "gaussian_elimination" } := by
  have hinv0 : ElimInv (n := n) 0 A :=
    ⟨fun r c hc => absurd hc (Nat.not_lt_zero _), fun d hd => absurd hd (Nat.not_lt_zero _)⟩
  cases hfe : forwardElimAux A b 0 n with
  | ok st =>
    exfalso
    obtain ⟨hiff, hinvn⟩ := forwardElimAux_ok_det n 0 A b st (by omega) hinv0 hfe
    exact det_ne_zero_of_elimInv st.1 hinvn (hiff.mpr hdet)
  | error msg =>
    obtain ⟨j, _, hjn, hmsg⟩ := forwardElimAux_error_shape n 0 A b msg hfe
    refine ⟨j, hjn, ?_⟩
    have hstr :
        (toString ("Error en eliminación gaussiana: ") ++
          toString (toString ("Elemento pivote muy pequeño en posición (") ++ toString j ++
            toString (", ") ++ toString j ++ toString (")")) ++ toString ("") : String) =
          s!"Error en eliminación gaussiana: Elemento pivote muy pequeño en posición ({j}, {j})" := by
      show ("Error en eliminación gaussiana: " ++
          ("Elemento pivote muy pequeño en posición (" ++ toString j ++ ", " ++
            toString j ++ ")") ++ "" : String) =
        "Error en eliminación gaussiana: Elemento pivote muy pequeño en posición (" ++
          toString j ++ ", " ++ toString j ++ ")"
      rw [String.append_empty, ← String.append_assoc, ← String.append_assoc,
        ← String.append_assoc, ← String.append_assoc]
      rfl
    unfold gaussianElimination
    rw [hfe, hmsg, ← hstr]

/-- If the LU forward phase completes, the input matrix was nonsingular (the `U`
component carries the elimination; the factor matrix `L` does not influence it). -/
theorem luForwardAux_ok_det {n : ℕ} :
    ∀ (gas i : ℕ),
      ∀ (L U : Matrix (Fin n) (Fin n) ℚ)
        (st : Matrix (Fin n) (Fin n) ℚ × Matrix (Fin n) (Fin n) ℚ),
        n ≤ i + gas → ElimInv i U → luForwardAux L U i gas = .ok st →
        (st.2.det = 0 ↔ U.det = 0) ∧ ElimInv n st.2 := by
  intro gas
  induction gas with
  | zero =>
    intro i L U st hni hinv hok
    rw [luForwardAux] at hok
    cases hok
    exact ⟨Iff.rfl, ⟨fun r c hc => hinv.1 r c (by omega),
      fun d hd => hinv.2 d (by omega)⟩⟩
  | succ gas ih =>
    intro i L U st hni hinv hok
    rw [luForwardAux] at hok
    by_cases hi : i < n
    · rw [dif_pos hi] at hok
      by_cases hpiv : |swapMat U ⟨i, hi⟩ ⟨i, hi⟩ ⟨i, hi⟩| < tolerance
      · rw [if_pos hpiv] at hok
        cases hok
      · rw [if_neg hpiv] at hok
        rw [foldl_luStep_snd] at hok
        obtain ⟨hinv2, hdet2⟩ := elimStage_props U i hi hinv hpiv
        obtain ⟨hiff, hinvn⟩ := ih (i + 1) _ _ st (by omega) hinv2 hok
        exact ⟨hiff.trans hdet2, hinvn⟩
    · rw [dif_neg hi] at hok
      cases hok
      exact ⟨Iff.rfl, ⟨fun r c hc => hinv.1 r c (by omega),
        fun d hd => hinv.2 d (by omega)⟩⟩

/-- Any error of the LU forward phase is the small-pivot message for some position. -/
theorem luForwardAux_error_shape {n : ℕ} :
    ∀ (gas i : ℕ),
      ∀ (L U : Matrix (Fin n) (Fin n) ℚ) (msg : String),
        luForwardAux L U i gas = .error msg →
        ∃ j : ℕ, i ≤ j ∧ j < n ∧
          msg = s!"Pivote muy pequeño en descomposición LU: posición ({j}, {j})" := by
  intro gas
  induction gas with
  | zero =>
    intro i L U msg herr
    rw [luForwardAux] at herr
    cases herr
  | succ gas ih =>
    intro i L U msg herr
    rw [luForwardAux] at herr
    by_cases hi : i < n
    · rw [dif_pos hi] at herr
      by_cases hpiv : |swapMat U ⟨i, hi⟩ ⟨i, hi⟩ ⟨i, hi⟩| < tolerance
      · rw [if_pos hpiv] at herr
        exact ⟨i, le_rfl, hi, (Except.error.inj herr).symm⟩
      · rw [if_neg hpiv] at herr
        obtain ⟨j, hij, hjn, hmsg⟩ := ih (i + 1) _ _ msg herr
        exact ⟨j, by omega, hjn, hmsg⟩
    · rw [dif_neg hi] at herr
      cases herr

/-- `luDecomposition` on a singular system returns, for some pivot position, the
explicit invalid result (whose catch-arm message is labelled `Cholesky`, as in the
source) with the zero-filled solution. -/
theorem luDecomposition_singular {n : ℕ} (A : Matrix (Fin n) (Fin n) ℚ)
    (b : Fin n → ℚ) (hdet : A.det = 0) :
    ∃ j : ℕ, j < n ∧
      luDecomposition A b =
        { isValid := false,
          error := some
            s!"Error en descomposición Cholesky: Pivote muy pequeño en descomposición LU: posición ({j}, {j})",
          values := List.replicate n 0,
          method := "cholesky_decomposition" } := by
  have hinv0 : ElimInv (n := n) 0 A :=
    ⟨fun r c hc => absurd hc (Nat.not_lt_zero _), fun d hd => absurd hd (Nat.not_lt_zero _)⟩
  cases hfe : luForwardAux (fun i j => if i = j then (1 : ℚ) else 0) A 0 n with
  | ok st =>
    exfalso
    obtain ⟨hiff, hinvn⟩ := luForwardAux_ok_det n 0 _ A st (by omega) hinv0 hfe
    exact det_ne_zero_of_elimInv st.2 hinvn (hiff.mpr hdet)
  | error msg =>
    obtain ⟨j, _, hjn, hmsg⟩ := luForwardAux_error_shape n 0 _ A msg hfe
    refine ⟨j, hjn, ?_⟩
    have hstr :
        (toString ("Error en descomposición Cholesky: ") ++
          toString (toString ("Pivote muy pequeño en descomposición LU: posición (") ++
            toString j ++ toString (", ") ++ toString j ++ toString (")")) ++
          toString ("") : String) =
          s!"Error en descomposición Cholesky: Pivote muy pequeño en descomposición LU: posición ({j}, {j})" := by
      show ("Error en descomposición Cholesky: " ++
          ("Pivote muy pequeño en descomposición LU: posición (" ++ toString j ++ ", " ++
            toString j ++ ")") ++ "" : String) =
        "Error en descomposición Cholesky: Pivote muy pequeño en descomposición LU: posición (" ++
          toString j ++ ", " ++ toString j ++ ")"
      rw [String.append_empty, ← String.append_assoc, ← String.append_assoc,
        ← String.append_assoc, ← String.append_assoc]
      rfl
    unfold luDecomposition
    rw [hfe, hmsg, ← hstr]

/-- The closed 3×3 form of `calculateDeterminant` is the true determinant. -/
theorem detThreeClosed_eq_det (M : Matrix (Fin 3) (Fin 3) ℚ) :
    detThreeClosed M = M.det := by
  rw [Matrix.det_fin_three, detThreeClosed]
  ring

/-- Up to size 4 (closed forms and the 4×4 cofactor expansion), `calculateDeterminant`
of the equation solver is the true determinant. -/
theorem calculateDeterminantES_eq_det {n : ℕ} (hn : n ≤ 4)
    (M : Matrix (Fin n) (Fin n) ℚ) : calculateDeterminantES M = M.det := by
  match n, hn, M with
  | 0, _, M =>
    rw [Matrix.det_fin_zero]
    show CircuitMatrixBuilder.approximateDeterminant M = 1
    simp [CircuitMatrixBuilder.approximateDeterminant]
  | 1, _, M =>
    rw [Matrix.det_fin_one]
    rfl
  | 2, _, M =>
    rw [Matrix.det_fin_two]
    rfl
  | 3, _, M =>
    show detThreeClosed M = _
    exact detThreeClosed_eq_det M
  | 4, _, M =>
    rw [Matrix.det_succ_row_zero]
    show (∑ i : Fin 4, M 0 i * ((-1) ^ (i : ℕ) * detThreeClosed (getMinor M 0 i)))
      = _
    refine Finset.sum_congr rfl (fun i _ => ?_)
    rw [detThreeClosed_eq_det (getMinor M 0 i), getMinor, Fin.succAbove_zero]
    ring

/-- `cramerRule` on a singular system of size at most 4 returns the explicit invalid
result with the small-determinant message and the zero-filled solution. -/
theorem cramerRule_singular {n : ℕ} (hn : n ≤ 4) (A : Matrix (Fin n) (Fin n) ℚ)
    (b : Fin n → ℚ) (hdet : A.det = 0) :
    cramerRule A b =
      { isValid := false,
        error := some "Error en regla de Cramer: Determinante muy pequeño para regla de Cramer",
        values := List.replicate n 0,
        method := "cramer_rule" } := by
  have h0 : calculateDeterminantES A = 0 := (calculateDeterminantES_eq_det hn A).trans hdet
  unfold cramerRule
  rw [h0]
  norm_num [tolerance]

end EquationSolver

/-! ## The demo circuit traced through the pipeline

Each stage of `analyzeCircuit` on `testCircuit` is evaluated against its expected
record; the stages compose into the full first and second (cached) runs. -/

theorem alGet_nil {α : Type _} (k : String) :
    alGet ([] : List (String × α)) k = none := rfl

theorem alGet_cons_self {α : Type _} (k : String) (v : α) (m : List (String × α)) :
    alGet ((k, v) :: m) k = some v := by
  simp [alGet, List.find?]

theorem alSet_nil {α : Type _} (k : String) (v : α) :
    alSet ([] : List (String × α)) k v = [(k, v)] := rfl

set_option maxRecDepth 100000 in
theorem na_eq : NodeAnalyzer.analyzeNodes testCircuit = naVal := by
  with_unfolding_all decide

set_option maxRecDepth 100000 in
theorem m_eq : CircuitMatrixBuilder.buildSystemMatrices naVal "series" = .ok mVal := by
  with_unfolding_all rfl

set_option maxRecDepth 100000 in
theorem s_eq : EquationSolver.solve mVal = sVal := by
  with_unfolding_all decide

set_option maxRecDepth 100000 in
theorem r_eq :
    CircuitAnalyzer.processResults sVal testCircuit naVal "series" 1 = (rVal, cVal) := by
  with_unfolding_all decide

set_option maxRecDepth 100000 in
theorem v2_eq : CircuitAnalyzer.validateResults rVal = ⟨true, []⟩ := by
  with_unfolding_all decide

set_option maxRecDepth 100000 in
theorem val_eq : CircuitAnalyzer.validateCircuit testCircuit = ⟨true, "", []⟩ := by
  with_unfolding_all decide

set_option maxRecDepth 100000 in
theorem sel_eq : CircuitAnalyzer.selectOptimalMethod naVal = "series" := by
  with_unfolding_all decide

set_option maxRecDepth 100000 in
theorem firstRun :
    CircuitAnalyzer.analyzeCircuit testCircuit [] 1 =
      (rVal, cVal, [(CircuitAnalyzer.generateCircuitHash testCircuit, rVal)]) := by
  simp only [CircuitAnalyzer.analyzeCircuit]
  generalize CircuitAnalyzer.generateCircuitHash testCircuit = hsh
  simp only [alGet_nil, na_eq, sel_eq, m_eq, s_eq, r_eq, v2_eq, val_eq, alSet_nil,
    Bool.not_true, Bool.not_false, ite_true, ite_false]
  simp [naVal, sVal]

set_option maxRecDepth 100000 in
/-- The analysis mutates only electrical fields, which the structural fingerprint
omits. -/
theorem json_inv :
    CircuitAnalyzer.circuitDataJson cVal = CircuitAnalyzer.circuitDataJson testCircuit := by
  with_unfolding_all decide

theorem hash_inv :
    CircuitAnalyzer.generateCircuitHash cVal =
      CircuitAnalyzer.generateCircuitHash testCircuit :=
  congrArg CircuitAnalyzer.simpleHash json_inv

/-- A fingerprint-cache hit short-circuits `analyzeCircuit`: the cached record is
returned with `fromCache` set, and neither the circuit nor the cache changes. -/
theorem analyzeCircuit_cache_hit (circuit : Circuit)
    (cache : List (String × CircuitAnalyzer.AnalysisResults)) (now : ℕ)
    (r : CircuitAnalyzer.AnalysisResults)
    (h : alGet cache (CircuitAnalyzer.generateCircuitHash circuit) = some r) :
    CircuitAnalyzer.analyzeCircuit circuit cache now =
      ({ r with fromCache := true }, circuit, cache) := by
  simp only [CircuitAnalyzer.analyzeCircuit, h]

theorem secondRun :
    CircuitAnalyzer.analyzeCircuit cVal
      [(CircuitAnalyzer.generateCircuitHash testCircuit, rVal)] 2 =
      ({ rVal with fromCache := true }, cVal,
        [(CircuitAnalyzer.generateCircuitHash testCircuit, rVal)]) := by
  refine analyzeCircuit_cache_hit cVal _ 2 rVal ?_
  rw [hash_inv]
  exact alGet_cons_self _ _ _

/-! ## Association-list and update lemmas -/

/-- Setting a key makes it readable back, whether it overwrites or appends. -/
theorem alGet_alSet_self {α : Type _} :
    ∀ (m : List (String × α)) (k : String) (v : α), alGet (alSet m k v) k = some v := by
  intro m
  induction m with
  | nil =>
    intro k v
    rw [alSet_nil]
    exact alGet_cons_self k v []
  | cons p m ih =>
    intro k v
    by_cases hp : p.1 = k
    · simp [alSet, alHas, alGet, List.find?, hp]
    · have hhas : alHas (p :: m) k = alHas m k := by
        simp [alHas, List.find?, hp]
      have hstep : alSet (p :: m) k v = p :: alSet m k v := by
        by_cases hm : alHas m k
        · simp [alSet, hhas, hm, hp]
        · rw [Bool.not_eq_true] at hm
          simp [alSet, hhas, hm]
      rw [hstep]
      simpa [alGet, List.find?, hp] using ih k v

/-- Mapping a function that the update leaves invariant across `updateFirst` changes
nothing. -/
theorem map_updateFirst {α β : Type _} (p : α → Bool) (f : α → α) (g : α → β)
    (hg : ∀ x, g (f x) = g x) :
    ∀ l : List α, (CircuitAnalyzer.updateFirst p f l).map g = l.map g := by
  intro l
  induction l with
  | nil => rfl
  | cons x xs ih =>
    by_cases hx : p x
    · simp [CircuitAnalyzer.updateFirst, hx, hg]
    · simp [CircuitAnalyzer.updateFirst, hx, ih]

/-! ## `processResults` invariants

The per-branch processing loop only writes the mutable electrical fields of the
circuit's components and the non-`isValid` fields of the results record; the results
record enters the loop with `isValid := true`. -/

theorem assignCurrentToComponent_isValid (cid : String) (cur : ℚ) (c : Circuit)
    (r : CircuitAnalyzer.AnalysisResults) :
    (CircuitAnalyzer.assignCurrentToComponent cid cur c r).2.isValid = r.isValid := by
  unfold CircuitAnalyzer.assignCurrentToComponent
  cases hf : c.components.find? (fun comp => comp.id = cid) with
  | none => rfl
  | some component => rfl

theorem processBranchStep_isValid (sol : EquationSolver.SolveResult)
    (st : Circuit × CircuitAnalyzer.AnalysisResults) (p : ℕ × NodeAnalyzer.Branch) :
    (CircuitAnalyzer.processBranchStep sol st p).2.isValid = st.2.isValid := by
  unfold CircuitAnalyzer.processBranchStep
  dsimp only
  cases hw : p.2.wireId with
  | none =>
    cases hc : p.2.componentId with
    | none => rfl
    | some cid => rw [assignCurrentToComponent_isValid]
  | some wireId =>
    cases hc : p.2.componentId with
    | none => rfl
    | some cid =>
      show (CircuitAnalyzer.assignCurrentToComponent cid _ st.1 _).2.isValid = _
      rw [assignCurrentToComponent_isValid]

theorem foldl_processBranchStep_isValid (sol : EquationSolver.SolveResult) :
    ∀ (l : List (ℕ × NodeAnalyzer.Branch)) (st : Circuit × CircuitAnalyzer.AnalysisResults),
      (l.foldl (CircuitAnalyzer.processBranchStep sol) st).2.isValid = st.2.isValid := by
  intro l
  induction l with
  | nil => intro st; rfl
  | cons p l ih =>
    intro st
    rw [List.foldl_cons, ih, processBranchStep_isValid]

theorem calculateTotalMetrics_isValid (r : CircuitAnalyzer.AnalysisResults)
    (c : Circuit) :
    (CircuitAnalyzer.calculateTotalMetrics r c).isValid = r.isValid := by
  unfold CircuitAnalyzer.calculateTotalMetrics
  dsimp only
  repeat' split
  all_goals rfl

/-- `processResults` always returns a record with `isValid = true` (it is reached only
after a valid solve, and nothing in it can fail). -/
theorem processResults_isValid (sol : EquationSolver.SolveResult) (c : Circuit)
    (na : NodeAnalyzer.NodeAnalysisResult) (method : String) (now : ℕ) :
    (CircuitAnalyzer.processResults sol c na method now).1.isValid = true := by
  unfold CircuitAnalyzer.processResults
  dsimp only
  split <;>
    simp [calculateTotalMetrics_isValid, foldl_processBranchStep_isValid]

/-! ## Structural-fingerprint invariance of the result processing

`assignCurrentToComponent` writes only the mutable `current`/`voltage`/`power`
fields, which `circuitDataJson` does not serialize, so the fingerprint of the mutated
circuit is unchanged. -/

theorem assignCurrentToComponent_json (cid : String) (cur : ℚ) (c : Circuit)
    (r : CircuitAnalyzer.AnalysisResults) :
    CircuitAnalyzer.circuitDataJson (CircuitAnalyzer.assignCurrentToComponent cid cur c r).1 =
      CircuitAnalyzer.circuitDataJson c := by
  unfold CircuitAnalyzer.assignCurrentToComponent
  cases hf : c.components.find? (fun comp => comp.id = cid) with
  | none => rfl
  | some component =>
    unfold CircuitAnalyzer.circuitDataJson
    dsimp only
    rw [map_updateFirst]
    intro x
    rfl

theorem processBranchStep_json (sol : EquationSolver.SolveResult)
    (st : Circuit × CircuitAnalyzer.AnalysisResults) (p : ℕ × NodeAnalyzer.Branch) :
    CircuitAnalyzer.circuitDataJson (CircuitAnalyzer.processBranchStep sol st p).1 =
      CircuitAnalyzer.circuitDataJson st.1 := by
  unfold CircuitAnalyzer.processBranchStep
  dsimp only
  cases hw : p.2.wireId with
  | none =>
    cases hc : p.2.componentId with
    | none => rfl
    | some cid => rw [assignCurrentToComponent_json]
  | some wireId =>
    cases hc : p.2.componentId with
    | none => rfl
    | some cid =>
      show CircuitAnalyzer.circuitDataJson
        (CircuitAnalyzer.assignCurrentToComponent cid _ st.1 _).1 = _
      rw [assignCurrentToComponent_json]

theorem foldl_processBranchStep_json (sol : EquationSolver.SolveResult) :
    ∀ (l : List (ℕ × NodeAnalyzer.Branch)) (st : Circuit × CircuitAnalyzer.AnalysisResults),
      CircuitAnalyzer.circuitDataJson
          (l.foldl (CircuitAnalyzer.processBranchStep sol) st).1 =
        CircuitAnalyzer.circuitDataJson st.1 := by
  intro l
  induction l with
  | nil => intro st; rfl
  | cons p l ih =>
    intro st
    rw [List.foldl_cons, ih, processBranchStep_json]

/-- The circuit coming out of `processResults` has the structural fingerprint of the
circuit that went in. -/
theorem processResults_json (sol : EquationSolver.SolveResult) (c : Circuit)
    (na : NodeAnalyzer.NodeAnalysisResult) (method : String) (now : ℕ) :
    CircuitAnalyzer.circuitDataJson
        (CircuitAnalyzer.processResults sol c na method now).2 =
      CircuitAnalyzer.circuitDataJson c := by
  unfold CircuitAnalyzer.processResults
  dsimp only
  exact foldl_processBranchStep_json _ _ _

/-! ## The three possible shapes of an `analyzeCircuit` call -/

/-- Every `analyzeCircuit` call is a cache hit (circuit and cache unchanged), an
invalid early return (circuit and cache unchanged), or a cache-missing valid analysis
(result stored in the cache under the circuit's fingerprint; the returned circuit keeps
that fingerprint). -/
theorem analyzeCircuit_cases (circuit : Circuit)
    (cache : List (String × CircuitAnalyzer.AnalysisResults)) (now : ℕ) :
    (∃ r, alGet cache (CircuitAnalyzer.generateCircuitHash circuit) = some r ∧
        CircuitAnalyzer.analyzeCircuit circuit cache now =
          ({ r with fromCache := true }, circuit, cache)) ∨
    ((CircuitAnalyzer.analyzeCircuit circuit cache now).1.isValid = false ∧
        (CircuitAnalyzer.analyzeCircuit circuit cache now).2.1 = circuit ∧
        (CircuitAnalyzer.analyzeCircuit circuit cache now).2.2 = cache) ∨
    ((CircuitAnalyzer.analyzeCircuit circuit cache now).1.isValid = true ∧
        alGet cache (CircuitAnalyzer.generateCircuitHash circuit) = none ∧
        (CircuitAnalyzer.analyzeCircuit circuit cache now).2.2 =
          alSet cache (CircuitAnalyzer.generateCircuitHash circuit)
            (CircuitAnalyzer.analyzeCircuit circuit cache now).1 ∧
        CircuitAnalyzer.circuitDataJson
            (CircuitAnalyzer.analyzeCircuit circuit cache now).2.1 =
          CircuitAnalyzer.circuitDataJson circuit) := by
  cases hg : alGet cache (CircuitAnalyzer.generateCircuitHash circuit) with
  | some r =>
    exact Or.inl ⟨r, rfl, by simp only [CircuitAnalyzer.analyzeCircuit, hg]⟩
  | none =>
    right
    cases hv : (CircuitAnalyzer.validateCircuit circuit).isValid with
    | false =>
      left
      refine ⟨?_, ?_, ?_⟩ <;> simp [CircuitAnalyzer.analyzeCircuit, hg, hv]
    | true =>
      cases hna : (NodeAnalyzer.analyzeNodes circuit).isValid with
      | false =>
        left
        refine ⟨?_, ?_, ?_⟩ <;> simp [CircuitAnalyzer.analyzeCircuit, hg, hv, hna]
      | true =>
        cases hbm : CircuitMatrixBuilder.buildSystemMatrices
            (NodeAnalyzer.analyzeNodes circuit)
            (CircuitAnalyzer.selectOptimalMethod (NodeAnalyzer.analyzeNodes circuit)) with
        | error e =>
          left
          refine ⟨?_, ?_, ?_⟩ <;> simp [CircuitAnalyzer.analyzeCircuit, hg, hv, hna, hbm]
        | ok matrices =>
          cases hs : (EquationSolver.solve matrices).isValid with
          | false =>
            left
            refine ⟨?_, ?_, ?_⟩ <;>
              simp [CircuitAnalyzer.analyzeCircuit, hg, hv, hna, hbm, hs]
          | true =>
            right
            refine ⟨?_, rfl, ?_, ?_⟩
            · simp [CircuitAnalyzer.analyzeCircuit, hg, hv, hna, hbm, hs]
              split <;> simp [processResults_isValid]
            · simp [CircuitAnalyzer.analyzeCircuit, hg, hv, hna, hbm, hs]
            · simp [CircuitAnalyzer.analyzeCircuit, hg, hv, hna, hbm, hs,
                processResults_json]

/-! ## Fatality of the component-validation errors -/

/-- The error list of `validateCircuit`'s per-component loop only grows. -/
theorem validateComponentStep_errors_prefix :
    ∀ (comps : List Component) (st : List String × List String),
      ∃ extra, (comps.foldl CircuitAnalyzer.validateComponentStep st).1 = st.1 ++ extra := by
  intro comps
  induction comps with
  | nil => exact fun st => ⟨[], (List.append_nil _).symm⟩
  | cons comp comps ih =>
    intro st
    rw [List.foldl_cons]
    obtain ⟨extra, hextra⟩ := ih (CircuitAnalyzer.validateComponentStep st comp)
    rw [hextra]
    unfold CircuitAnalyzer.validateComponentStep
    dsimp only
    by_cases hc : (CircuitAnalyzer.validateComponent comp).isValid
    · exact ⟨extra, by simp [hc]⟩
    · refine ⟨[s!"{comp.label}: {(CircuitAnalyzer.validateComponent comp).error}"] ++ extra, ?_⟩
      rw [Bool.not_eq_true] at hc
      simp [hc]

/-- If some component fails its validation, the loop's error list is nonempty. -/
theorem validateComponentStep_errors_ne_nil :
    ∀ (comps : List Component) (st : List String × List String) (comp : Component),
      comp ∈ comps → (CircuitAnalyzer.validateComponent comp).isValid = false →
      (comps.foldl CircuitAnalyzer.validateComponentStep st).1 ≠ [] := by
  intro comps
  induction comps with
  | nil => intro st comp h; cases h
  | cons c comps ih =>
    intro st comp hmem hinv
    rw [List.foldl_cons]
    rcases List.mem_cons.mp hmem with heq | hmem'
    · subst heq
      obtain ⟨extra, hextra⟩ :=
        validateComponentStep_errors_prefix comps (CircuitAnalyzer.validateComponentStep st comp)
      rw [hextra]
      unfold CircuitAnalyzer.validateComponentStep
      dsimp only
      rw [hinv]
      simp
    · exact ih _ comp hmem' hinv

/-- A resistor with non-positive value fails `validateComponent` (fatal error, not a
warning). -/
theorem validateComponent_resistor_nonpos (comp : Component)
    (htype : comp.type = "resistor") (hval : comp.value ≤ 0) :
    (CircuitAnalyzer.validateComponent comp).isValid = false := by
  unfold CircuitAnalyzer.validateComponent
  rw [htype]
  dsimp only
  rw [if_pos hval]
  rcases h10 : decide (comp.value < 1/10) with _ | _ <;>
    rcases hbig : decide (comp.value > 1000000000000) with _ | _ <;>
      simp [h10, hbig]

/-- A circuit containing a resistor with non-positive value fails `validateCircuit`. -/
theorem validateCircuit_resistor_nonpos (circuit : Circuit) (comp : Component)
    (hmem : comp ∈ circuit.components) (htype : comp.type = "resistor")
    (hval : comp.value ≤ 0) :
    (CircuitAnalyzer.validateCircuit circuit).isValid = false := by
  unfold CircuitAnalyzer.validateCircuit
  dsimp only
  have hne := fun st => validateComponentStep_errors_ne_nil circuit.components st comp hmem
    (validateComponent_resistor_nonpos comp htype hval)
  apply decide_eq_false
  intro hlen
  rw [List.length_eq_zero] at hlen
  split at hlen
  · exact absurd hlen (by simp)
  · exact hne _ hlen

/-- With a cache miss, a failed circuit validation makes `analyzeCircuit` return the
explicit invalid result, leaving circuit and cache untouched. -/
theorem analyzeCircuit_validation_failed (circuit : Circuit)
    (cache : List (String × CircuitAnalyzer.AnalysisResults)) (now : ℕ)
    (hmiss : alGet cache (CircuitAnalyzer.generateCircuitHash circuit) = none)
    (hv : (CircuitAnalyzer.validateCircuit circuit).isValid = false) :
    CircuitAnalyzer.analyzeCircuit circuit cache now =
      ({ isValid := false, error := some (CircuitAnalyzer.validateCircuit circuit).error,
         warnings := (CircuitAnalyzer.validateCircuit circuit).warnings },
       circuit, cache) := by
  simp [CircuitAnalyzer.analyzeCircuit, hmiss, hv]

/-! ## What `findMeshes` records -/

/-- A mesh present after one `findMeshes` step was already present or has more than
two branches. -/
theorem findMeshesStep_mem (all : List NodeAnalyzer.Branch)
    (st : List NodeAnalyzer.Mesh × List String) (b : NodeAnalyzer.Branch)
    (m : NodeAnalyzer.Mesh) (hm : m ∈ (NodeAnalyzer.findMeshesStep all st b).1) :
    m ∈ st.1 ∨ m.branches.length > 2 := by
  unfold NodeAnalyzer.findMeshesStep at hm
  dsimp only at hm
  split at hm
  · exact Or.inl hm
  · split at hm
    case isTrue h =>
      rcases List.mem_append.mp hm with h1 | h2
      · exact Or.inl h1
      · right
        rcases List.mem_singleton.mp h2 with rfl
        exact h
    case isFalse h => exact Or.inl hm

/-- Meshes present after the whole loop were present initially or have more than two
branches. -/
theorem foldl_findMeshesStep_mem (all : List NodeAnalyzer.Branch) :
    ∀ (l : List NodeAnalyzer.Branch) (st : List NodeAnalyzer.Mesh × List String)
      (m : NodeAnalyzer.Mesh), m ∈ (l.foldl (NodeAnalyzer.findMeshesStep all) st).1 →
      m ∈ st.1 ∨ m.branches.length > 2 := by
  intro l
  induction l with
  | nil => intro st m hm; exact Or.inl hm
  | cons b l ih =>
    intro st m hm
    rw [List.foldl_cons] at hm
    rcases ih _ m hm with h1 | h2
    · exact findMeshesStep_mem all st b m h1
    · exact Or.inr h2

/-! ## The key `selectSolverMethod` never sees -/

/-- `checkMatrixConditioning` never writes the `isPositiveDefinite` key (the JS read
is `undefined`, hence falsy). -/
theorem checkMatrixConditioning_no_ipd {n : ℕ} (M : Matrix (Fin n) (Fin n) ℚ) :
    (CircuitMatrixBuilder.checkMatrixConditioning M).isPositiveDefinite = false := rfl

/-! # The claims -/

/-- C1 (amended): in the mesh impedance matrix each diagonal entry `(i,i)` is the sum
of the impedances of the branches of mesh `i`, exactly as the specification says; each
off-diagonal entry `(i,j)`, however, is the **negation** of the specified value — the
source sums the shared impedances without the minus sign. -/
theorem c1_mesh_impedance_matrix (meshes : List NodeAnalyzer.Mesh)
    (i j : Fin meshes.length) :
    CircuitMatrixBuilder.buildMeshImpedanceMatrix meshes i j =
      if i = j then meshImpedanceMatrixSpec meshes i j
      else -(meshImpedanceMatrixSpec meshes i j) := by
  unfold CircuitMatrixBuilder.buildMeshImpedanceMatrix meshImpedanceMatrixSpec
  by_cases h : i = j <;> simp [h]

/-- C1 counterexample: two meshes sharing one 3 Ω branch produce the off-diagonal
entry `+3` where the specification requires `−3`. -/
theorem c1_counterexample :
    CircuitMatrixBuilder.buildMeshImpedanceMatrix twoMeshes ⟨0, by decide⟩ ⟨1, by decide⟩
        = 3 ∧
    meshImpedanceMatrixSpec twoMeshes ⟨0, by decide⟩ ⟨1, by decide⟩ = -3 := by
  constructor <;> with_unfolding_all decide

/-- C2: an `analyzeCircuit` call whose result is invalid returns the circuit — every
component with its electrical fields, and every wire — and the cache exactly as they
were: results are applied only on the fully valid path. -/
theorem c2_no_mutation_on_invalid (circuit : Circuit)
    (cache : List (String × CircuitAnalyzer.AnalysisResults)) (now : ℕ)
    (h : (CircuitAnalyzer.analyzeCircuit circuit cache now).1.isValid = false) :
    (CircuitAnalyzer.analyzeCircuit circuit cache now).2.1 = circuit ∧
    (CircuitAnalyzer.analyzeCircuit circuit cache now).2.2 = cache := by
  rcases analyzeCircuit_cases circuit cache now with ⟨r, _, heq⟩ | ⟨_, hc, hca⟩ | ⟨hv, _⟩
  · rw [heq]
    exact ⟨rfl, rfl⟩
  · exact ⟨hc, hca⟩
  · rw [hv] at h
    cases h

/-- C2 witness: the empty circuit fails validation and comes back untouched. -/
theorem c2_witness :
    (CircuitAnalyzer.analyzeCircuit { components := [], wires := [] } [] 0).1.isValid
        = false ∧
    ((CircuitAnalyzer.analyzeCircuit { components := [], wires := [] } [] 0).2.1 =
        { components := [], wires := [] } ∧
      (CircuitAnalyzer.analyzeCircuit { components := [], wires := [] } [] 0).2.2 = []) :=
  ⟨by with_unfolding_all decide,
   c2_no_mutation_on_invalid { components := [], wires := [] } [] 0
     (by with_unfolding_all decide)⟩

/-- C3 (amended): a cache-missing first analysis that succeeds makes the second call on
the returned circuit and cache a cache hit: the second result is the first with the
`fromCache` flag set — identical in every other field — and circuit and cache are
unchanged.  (Bit-identity fails exactly on that flag: see the counterexample.) -/
theorem c3_second_call_cached (circuit : Circuit)
    (cache : List (String × CircuitAnalyzer.AnalysisResults)) (now now' : ℕ)
    (hmiss : alGet cache (CircuitAnalyzer.generateCircuitHash circuit) = none)
    (hvalid : (CircuitAnalyzer.analyzeCircuit circuit cache now).1.isValid = true) :
    CircuitAnalyzer.analyzeCircuit
        (CircuitAnalyzer.analyzeCircuit circuit cache now).2.1
        (CircuitAnalyzer.analyzeCircuit circuit cache now).2.2 now' =
      ({ (CircuitAnalyzer.analyzeCircuit circuit cache now).1 with fromCache := true },
       (CircuitAnalyzer.analyzeCircuit circuit cache now).2.1,
       (CircuitAnalyzer.analyzeCircuit circuit cache now).2.2) := by
  rcases analyzeCircuit_cases circuit cache now with
    ⟨r, hg, _⟩ | ⟨hv, _, _⟩ | ⟨_, _, hca, hjson⟩
  · rw [hmiss] at hg
    cases hg
  · rw [hv] at hvalid
    cases hvalid
  · apply analyzeCircuit_cache_hit
    have hh : CircuitAnalyzer.generateCircuitHash
        (CircuitAnalyzer.analyzeCircuit circuit cache now).2.1 =
        CircuitAnalyzer.generateCircuitHash circuit :=
      congrArg CircuitAnalyzer.simpleHash hjson
    rw [hh, hca]
    exact alGet_alSet_self cache _ _

/-- C3 witness: the demo circuit's second analysis is its first with `fromCache`
set. -/
theorem c3_witness :
    CircuitAnalyzer.analyzeCircuit
        (CircuitAnalyzer.analyzeCircuit testCircuit [] 1).2.1
        (CircuitAnalyzer.analyzeCircuit testCircuit [] 1).2.2 2 =
      ({ (CircuitAnalyzer.analyzeCircuit testCircuit [] 1).1 with fromCache := true },
       (CircuitAnalyzer.analyzeCircuit testCircuit [] 1).2.1,
       (CircuitAnalyzer.analyzeCircuit testCircuit [] 1).2.2) :=
  c3_second_call_cached testCircuit [] 1 2 rfl (by rw [firstRun]; rfl)

/-- C3 counterexample: the second result is not bit-identical to the first — its
`fromCache` flag differs. -/
theorem c3_counterexample :
    (CircuitAnalyzer.analyzeCircuit
        (CircuitAnalyzer.analyzeCircuit testCircuit [] 1).2.1
        (CircuitAnalyzer.analyzeCircuit testCircuit [] 1).2.2 2).1 ≠
      (CircuitAnalyzer.analyzeCircuit testCircuit [] 1).1 := by
  rw [firstRun]
  dsimp only
  rw [secondRun]
  intro h
  have h2 := congrArg CircuitAnalyzer.AnalysisResults.fromCache h
  simp [rVal] at h2

/-- C4 (amended): `VoltageSource.getOutputVoltage` realises the specified
`clamp(value − I·R_internal, ±compliance)` model only for an enabled `dc` source with
positive internal resistance and nonzero output current; the analysis pipeline's
electrical model `calculateVoltage` instead returns a voltage source's nominal value
unchanged (no `I·R` drop, no clamp); a current source's `calculateCurrent` does return
its nominal value unchanged, as specified. -/
theorem c4_source_models (s : VoltageSource) (comp comp' : Component) (i v : ℚ)
    (hen : s.isEnabled = true) (hdc : s.sourceType = "dc")
    (hr : 0 < s.internalResistance) (hi : s.outputCurrent ≠ 0)
    (hv : comp.type = "voltage") (hc : comp'.type = "current") :
    s.getOutputVoltage 0 =
      sourceVoltageSpec s.value s.internalResistance s.compliance s.outputCurrent ∧
    OhmLawHelper.calculateVoltage comp i = comp.value ∧
    OhmLawHelper.calculateCurrent comp' v = comp'.value := by
  refine ⟨?_, ?_, ?_⟩
  · unfold VoltageSource.getOutputVoltage sourceVoltageSpec
    simp only [hen, Bool.not_true, Bool.false_eq_true, if_false]
    rw [hdc, if_pos ⟨hr, hi⟩]
    with_unfolding_all rfl
  · unfold OhmLawHelper.calculateVoltage
    rw [hv]
    with_unfolding_all rfl
  · unfold OhmLawHelper.calculateCurrent
    rw [hc]
    with_unfolding_all rfl

/-- C4 witness: a 12 V dc source with 2 Ω internal resistance and 1 A output current
delivers `12 − 1·2 = 10` within the 100 V compliance window, while the pipeline's
model still reports 12 for a 12 V voltage-source component. -/
theorem c4_witness :
    VoltageSource.getOutputVoltage
        { value := 12, internalResistance := 2, compliance := 100, outputCurrent := 1 }
        0 =
      sourceVoltageSpec 12 2 100 1 ∧
    OhmLawHelper.calculateVoltage { id := "V", type := "voltage", value := 12 } 1 = 12 ∧
    OhmLawHelper.calculateCurrent { id := "I", type := "current", value := 3 } 5 = 3 :=
  c4_source_models
    { value := 12, internalResistance := 2, compliance := 100, outputCurrent := 1 }
    { id := "V", type := "voltage", value := 12 }
    { id := "I", type := "current", value := 3 } 1 5
    rfl rfl (by norm_num) (by norm_num) rfl rfl

/-- C4 counterexample: with 1 A flowing, the specification's source model gives 10 V,
but the pipeline's electrical model returns the nominal 12 V — the `I·R_internal`
drop and the compliance clamp never reach `calculateVoltage`. -/
theorem c4_counterexample :
    OhmLawHelper.calculateVoltage { id := "V", type := "voltage", value := 12 } 1 = 12 ∧
    sourceVoltageSpec 12 2 100 1 = 10 := by
  constructor <;> with_unfolding_all decide

/-- C5 (amended): every mesh recorded by `findMeshes` has more than two branches —
that is the only recording condition in the source; nothing checks that the walk
closed, so a recorded mesh need not return to its start node (counterexample). -/
theorem c5_recorded_mesh_length (nodes : List NodeAnalyzer.ENode)
    (branches : List NodeAnalyzer.Branch) (m : NodeAnalyzer.Mesh)
    (hm : m ∈ NodeAnalyzer.findMeshes nodes branches) :
    m.branches.length > 2 := by
  unfold NodeAnalyzer.findMeshes at hm
  rcases foldl_findMeshesStep_mem branches branches ([], []) m hm with h | h
  · cases h
  · exact h

/-- C5 witness: the recorded walk over the open three-branch path has length 3. -/
theorem c5_witness :
    ({ id := "mesh_0", branches := openPath, nodes := ["n0", "n1", "n2", "n3"] }
        : NodeAnalyzer.Mesh) ∈ NodeAnalyzer.findMeshes [] openPath ∧
    ({ id := "mesh_0", branches := openPath, nodes := ["n0", "n1", "n2", "n3"] }
        : NodeAnalyzer.Mesh).branches.length > 2 :=
  ⟨by with_unfolding_all decide,
   c5_recorded_mesh_length [] openPath _ (by with_unfolding_all decide)⟩

/-- C5 counterexample: the open path `n0 → n1 → n2 → n3` never returns to `n0`, yet
`findMeshes` records it as a mesh. -/
theorem c5_counterexample :
    NodeAnalyzer.findMeshes [] openPath =
      [{ id := "mesh_0", branches := openPath, nodes := ["n0", "n1", "n2", "n3"] }] ∧
    meshIsClosedWalk openPath pathB0.startNodeId = false := by
  constructor <;> with_unfolding_all decide

/-- C6 (amended): on a singular system the gaussian elimination and the LU
decomposition (whose catch arm is labelled `Cholesky`, as in the source) return
explicit invalid results with the small-pivot message and zero-filled solutions at
every size; Cramer's rule does so up to size 4, where `calculateDeterminant` is exact
— above that the determinant is approximated by the diagonal product and a singular
system can be answered as valid (counterexample). -/
theorem c6_singular_direct_methods {n : ℕ} (A : Matrix (Fin n) (Fin n) ℚ)
    (b : Fin n → ℚ) (hdet : A.det = 0) :
    (∃ j : ℕ, j < n ∧
      EquationSolver.gaussianElimination A b =
        { isValid := false,
          error := some
            s!"Error en eliminación gaussiana: Elemento pivote muy pequeño en posición ({j}, {j})",
          values := List.replicate n 0,
          method := "gaussian_elimination" }) ∧
    (∃ j : ℕ, j < n ∧
      EquationSolver.luDecomposition A b =
        { isValid := false,
          error := some
            s!"Error en descomposición Cholesky: Pivote muy pequeño en descomposición LU: posición ({j}, {j})",
          values := List.replicate n 0,
          method := "cholesky_decomposition" }) ∧
    (n ≤ 4 →
      EquationSolver.cramerRule A b =
        { isValid := false,
          error := some "Error en regla de Cramer: Determinante muy pequeño para regla de Cramer",
          values := List.replicate n 0,
          method := "cramer_rule" }) :=
  ⟨EquationSolver.gaussianElimination_singular A b hdet,
   EquationSolver.luDecomposition_singular A b hdet,
   fun hn => EquationSolver.cramerRule_singular hn A b hdet⟩

/-- C6 witness: the singular 1×1 zero system is rejected by Cramer's rule. -/
theorem c6_witness :
    (EquationSolver.cramerRule ((fun _ _ => (0 : ℚ)) : Matrix (Fin 1) (Fin 1) ℚ)
        (fun _ => 1)).isValid = false := by
  have h := c6_singular_direct_methods
    ((fun _ _ => (0 : ℚ)) : Matrix (Fin 1) (Fin 1) ℚ) (fun _ => 1)
    (by simp [Matrix.det_fin_one])
  rw [h.2.2 (by norm_num)]

/-- C6 counterexample: the all-ones 5×5 matrix is singular, but Cramer's rule sits on
the diagonal-product determinant approximation (which gives 1) and reports a valid
result. -/
theorem c6_counterexample :
    (Matrix.of (fun _ _ => (1 : ℚ)) : Matrix (Fin 5) (Fin 5) ℚ).det = 0 ∧
    (EquationSolver.cramerRule (Matrix.of (fun _ _ => (1 : ℚ)) : Matrix (Fin 5) (Fin 5) ℚ)
        (fun _ => 1)).isValid = true := by
  constructor
  · exact Matrix.det_zero_of_row_eq
      (M := (Matrix.of (fun _ _ => (1 : ℚ)) : Matrix (Fin 5) (Fin 5) ℚ))
      (i := 0) (j := 1) (by decide) rfl
  · with_unfolding_all decide

/-- C7 (amended): the conditioning record the pipeline attaches never carries the
`isPositiveDefinite` key (`checkMatrixConditioning` does not write it, the JS read is
`undefined`), so `selectSolverMethod` never chooses Cholesky — symmetry and actual
positive-definiteness notwithstanding; when the conditioning carries no warning (and
the system is not series/parallel/small-Cramer), the choice is gaussian elimination
for `n ≤ 10` and LU decomposition above, as specified. -/
theorem c7_solver_selection {k : ℕ} (M : Matrix (Fin k) (Fin k) ℚ)
    (matrices : CircuitMatrixBuilder.BuiltMatrices)
    (hcond : matrices.conditioning =
      some (CircuitMatrixBuilder.checkMatrixConditioning M)) :
    EquationSolver.selectSolverMethod matrices ≠ "cholesky" ∧
    (matrices.method ≠ "series" → matrices.method ≠ "parallel" →
      ¬(matrices.n ≤ 3 ∧ EquationSolver.tolerance <
          |(CircuitMatrixBuilder.checkMatrixConditioning M).determinant|) →
      (CircuitMatrixBuilder.checkMatrixConditioning M).warning = none →
      EquationSolver.selectSolverMethod matrices =
        if matrices.n ≤ 10 then "direct_elimination" else "lu_decomposition") := by
  constructor
  · unfold EquationSolver.selectSolverMethod
    simp only [hcond, checkMatrixConditioning_no_ipd, Bool.and_false]
    intro hEq
    repeat' split at hEq
    all_goals first
      | exact absurd hEq (by decide)
      | simp_all
  · intro hs hp hcr hw
    unfold EquationSolver.selectSolverMethod
    simp only [hcond, checkMatrixConditioning_no_ipd, Bool.and_false, hw]
    rw [if_neg hs, if_neg hp, if_neg ?hcram, if_neg (by simp), if_pos (by simp)]
    case hcram =>
      intro hand
      exact hcr ⟨hand.1, by simpa using hand.2⟩

/-- C7 witness: the 4×4 identity system tagged `nodal` is solved by gaussian
elimination, not Cholesky. -/
theorem c7_witness :
    EquationSolver.selectSolverMethod nodalFixture ≠ "cholesky" ∧
    EquationSolver.selectSolverMethod nodalFixture = "direct_elimination" := by
  have h := c7_solver_selection idMatrixFour nodalFixture rfl
  refine ⟨h.1, ?_⟩
  have h2 := h.2 (by decide) (by decide) (by with_unfolding_all decide)
    (by with_unfolding_all decide)
  rw [h2]
  with_unfolding_all rfl

/-- C7 counterexample: the 4×4 identity matrix is symmetric (by the builder's own
`checkSymmetry`) and positive definite (by the builder's own `isPositiveDefinite`),
yet the selected method is `direct_elimination`, never `cholesky`. -/
theorem c7_counterexample :
    CircuitMatrixBuilder.checkSymmetry idMatrixFour = true ∧
    CircuitMatrixBuilder.isPositiveDefinite idMatrixFour = true ∧
    EquationSolver.selectSolverMethod nodalFixture = "direct_elimination" := by
  refine ⟨?_, ?_, ?_⟩ <;> with_unfolding_all decide

/-- C8: with no special topology, the coordinator compares
`(nodeCount − 1) + 2·voltageSourceCount` against
`(branchCount − nodeCount + 1) + 2·currentSourceCount` (in JS numbers, here ℤ): ties
go to the nodal family, `nodal_modified`/`mesh_modified` exactly when voltage/current
sources are present. -/
theorem c8_method_selection (na : NodeAnalyzer.NodeAnalysisResult)
    (hs : na.topology.isSeriesCircuit = false)
    (hp : na.topology.isParallelCircuit = false)
    (hl : na.topology.isLadderCircuit = false) :
    CircuitAnalyzer.selectOptimalMethod na =
      if (na.nodeCount : ℤ) - 1 + 2 * (na.voltageSourceCount : ℤ) ≤
          (na.branchCount : ℤ) - (na.nodeCount : ℤ) + 1 + 2 * (na.currentSourceCount : ℤ)
      then
        if na.voltageSourceCount > 0 then "nodal_modified" else "nodal"
      else
        if na.currentSourceCount > 0 then "mesh_modified" else "mesh" := by
  unfold CircuitAnalyzer.selectOptimalMethod
  simp only [hs, hp, hl, Bool.false_eq_true, if_false]
  exact if_congr (by constructor <;> intro h <;> omega) rfl rfl

/-- C8 witness: 4 nodes, 6 branches, one voltage source — nodal complexity 5, mesh
complexity 3 — selects `mesh`. -/
theorem c8_witness :
    CircuitAnalyzer.selectOptimalMethod generalNA = "mesh" := by
  rw [c8_method_selection generalNA rfl rfl rfl]
  with_unfolding_all decide

/-- C9 (corrected): a zero or negative resistance is a fatal validation error — the
message "La resistencia debe ser mayor que cero" joins `errors`, validation reports
`isValid = false`, and a cache-missing analysis returns that failure (circuit and
cache untouched) instead of proceeding to a successful result with a warning. -/
theorem c9_nonpositive_resistance_fatal (circuit : Circuit) (comp : Component)
    (cache : List (String × CircuitAnalyzer.AnalysisResults)) (now : ℕ)
    (hmem : comp ∈ circuit.components) (htype : comp.type = "resistor")
    (hval : comp.value ≤ 0)
    (hmiss : alGet cache (CircuitAnalyzer.generateCircuitHash circuit) = none) :
    (CircuitAnalyzer.validateCircuit circuit).isValid = false ∧
    CircuitAnalyzer.analyzeCircuit circuit cache now =
      ({ isValid := false, error := some (CircuitAnalyzer.validateCircuit circuit).error,
         warnings := (CircuitAnalyzer.validateCircuit circuit).warnings },
       circuit, cache) := by
  have hv := validateCircuit_resistor_nonpos circuit comp hmem htype hval
  exact ⟨hv, analyzeCircuit_validation_failed circuit cache now hmiss hv⟩

/-- C9 witness: the demo circuit with its resistor set to 0 Ω fails validation and the
analysis aborts. -/
theorem c9_witness :
    (CircuitAnalyzer.validateCircuit zeroResCircuit).isValid = false ∧
    CircuitAnalyzer.analyzeCircuit zeroResCircuit [] 0 =
      ({ isValid := false,
         error := some (CircuitAnalyzer.validateCircuit zeroResCircuit).error,
         warnings := (CircuitAnalyzer.validateCircuit zeroResCircuit).warnings },
       zeroResCircuit, []) :=
  c9_nonpositive_resistance_fatal zeroResCircuit cR0 [] 0
    (by with_unfolding_all decide) rfl (by with_unfolding_all decide) rfl

/-- C9 counterexample: the analysis of the 0 Ω-resistor circuit does not proceed to a
successful result — it returns `isValid = false` with the fatal resistance error, not
a warning. -/
theorem c9_counterexample :
    (CircuitAnalyzer.analyzeCircuit zeroResCircuit [] 0).1.isValid = false ∧
    (CircuitAnalyzer.analyzeCircuit zeroResCircuit [] 0).1.error =
      some "R1: La resistencia debe ser mayor que cero" := by
  constructor <;> with_unfolding_all decide

/-- C10: for any solve whose matrices are tagged with a method other than `series` or
`parallel` (so the nodal, `nodal_modified`, mesh and `mesh_modified` paths), the
branch-current map built by `extractBranchCurrents` stores the placeholder 0 for every
branch. -/
theorem c10_branch_currents_zero (solutionValues : List ℚ)
    (matrices : CircuitMatrixBuilder.BuiltMatrices)
    (hs : matrices.method ≠ "series") (hp : matrices.method ≠ "parallel") :
    ∀ p ∈ EquationSolver.extractBranchCurrents solutionValues matrices, p.2 = 0 := by
  intro p hpmem
  unfold EquationSolver.extractBranchCurrents at hpmem
  rw [if_neg hs, if_neg hp] at hpmem
  obtain ⟨q, _, rfl⟩ := List.mem_map.mp hpmem
  rfl

/-- C10 witness: on the demo matrices re-tagged `nodal`, the branch-current entry of
`branch_0` is the placeholder 0. -/
theorem c10_witness :
    (("branch_0", (0 : ℚ)) ∈
      EquationSolver.extractBranchCurrents [3/250] { mVal with method := "nodal" }) ∧
    (("branch_0", (0 : ℚ)) : String × ℚ).2 = 0 :=
  ⟨by with_unfolding_all decide,
   c10_branch_currents_zero [3/250] { mVal with method := "nodal" }
     (by decide) (by decide) ("branch_0", 0) (by with_unfolding_all decide)⟩

end CircuitSim
